import Mathlib

/-! # tbc-lib-go: the transaction example program

A verification development for `examples/transaction_test/transaction.go`.

The example program is call-site code over the transaction builder of the
library.  The parts of the program that are plain Go (the hex literals and
their decoding, the locktime arithmetic and the locktime reading, the error
handling of each example function) are embedded directly.  The builder
itself is not part of the examined source; it is modelled from the written
specification, and every such definition says so in its doc comment.
-/

namespace TbcLib

/-! ## Go `encoding/hex` (used by `mustDecodeHex`, `mustLockingScript`) -/

/-- Go `hex.fromHexChar`: the value of one hexadecimal digit, either case. -/
def fromHexChar (c : Char) : Option Nat :=
  let n := c.toNat
  if 48 ≤ n ∧ n ≤ 57 then some (n - 48)
  else if 97 ≤ n ∧ n ≤ 102 then some (n - 97 + 10)
  else if 65 ≤ n ∧ n ≤ 70 then some (n - 65 + 10)
  else none

/-- Go `hex.Decode` over the characters of the source string: two digits
make one byte; an invalid digit or a dangling last digit is an error. -/
def decodePairs : List Char → Option (List Nat)
  | [] => some []
  | [_] => none
  | a :: b :: rest =>
    match fromHexChar a, fromHexChar b with
    | some hi, some lo =>
      match decodePairs rest with
      | some bs => some ((hi * 16 + lo) :: bs)
      | none => none
    | _, _ => none

/-- Go `hex.DecodeString`; `none` stands for a non-nil error. -/
def hexDecodeString (s : String) : Option (List Nat) :=
  decodePairs s.toList

/-- The digit table `"0123456789abcdef"` of Go `hex.EncodeToString`. -/
def hexDigit (n : Nat) : Char :=
  if n < 10 then Char.ofNat (48 + n) else Char.ofNat (87 + n)

/-- Go `hex.Encode`: two lowercase digits per byte. -/
def encodeChars : List Nat → List Char
  | [] => []
  | b :: bs => hexDigit (b / 16) :: hexDigit (b % 16) :: encodeChars bs

/-- Go `hex.EncodeToString`. -/
def hexEncodeToString (bs : List Nat) : String :=
  String.mk (encodeChars bs)

/-- `mustDecodeHex` (lines 375-381): the decoded bytes; `none` is the panic. -/
def mustDecodeHex (s : String) : Option (List Nat) :=
  match hexDecodeString s with
  | some b => some b
  | none => none

/-- `mustLockingScript` (lines 384-390): `bscript.NewFromBytes` keeps the
decoded bytes as the script; `none` is the panic. -/
def mustLockingScript (hexStr : String) : Option (List Nat) :=
  match hexDecodeString hexStr with
  | some b => some b
  | none => none

/-! ## Script shapes -/

def OpDUP : Nat := 0x76
def OpHASH160 : Nat := 0xa9
def OpDATA20 : Nat := 0x14
def OpEQUALVERIFY : Nat := 0x88
def OpCHECKSIG : Nat := 0xac
def OpRETURN : Nat := 0x6a

/-- Modelled from the spec: the script builder `lockingScriptToAddress`
(§4.1) is not in the examined source.  It builds the single-key
pay-to-address script around a public-key hash: `76 a9 14`, the hash,
`88 ac`, the shape of the literals of the example program. -/
def lockingScriptToAddress (pubKeyHash : List Nat) : List Nat :=
  [OpDUP, OpHASH160, OpDATA20] ++ pubKeyHash ++ [OpEQUALVERIFY, OpCHECKSIG]

/-- Modelled from the spec: the shape recogniser for the single-key
pay-to-address pattern (§4.1, §4.6) is not in the examined source.  A script
has the shape when it is 25 bytes long, begins `76 a9 14` and ends `88 ac`. -/
def isPayToAddress (s : List Nat) : Bool :=
  s.length == 25 && s.take 3 == [OpDUP, OpHASH160, OpDATA20]
    && s.drop 23 == [OpEQUALVERIFY, OpCHECKSIG]

/-! ## The locking-script literals of the program -/

/-- The literal of line 57 (`basicTransaction`). -/
def scriptLine57 : String :=
  "76a914eb0bd5edba389198e73f8efabddfc61666969ff788ac6a0568656c6c6f"

/-- The literal of lines 108, 149, 189, 228, 260 and 325. -/
def scriptEb0b : String := "76a914eb0bd5edba389198e73f8efabddfc61666969ff788ac"

/-- The literal of lines 115, 196 and 355. -/
def script9cbe : String := "76a9149cbe9f5e72fa286ac8a38052d1d5337aa363ea7f88ac"

/-- The previous transaction id of lines 55, 105, 147, 187, 226, 258, 323. -/
def txid11b4 : String :=
  "11b476ad8e0a48fcd40807a111a050af51114877e09283bfa7f3505081a1819d"

/-- The previous transaction id of lines 112, 194 and 353. -/
def txidB7b0 : String :=
  "b7b0650a7c3a1bd4716369783876348b59f5404784970192cec1996e86950576"

/-- Every locking-script literal handed to `From` or `mustLockingScript`,
with the source line it stands on. -/
def lockingScriptLiterals : List (Nat × String) :=
  [(57, scriptLine57), (108, scriptEb0b), (115, script9cbe), (149, scriptEb0b),
   (189, scriptEb0b), (196, script9cbe), (228, scriptEb0b), (260, scriptEb0b),
   (325, scriptEb0b), (355, script9cbe)]

/-- The bytes of the ASCII text `hello`. -/
def helloBytes : List Nat := [0x68, 0x65, 0x6c, 0x6c, 0x6f]

/-- A literal decodes to the 25-byte pay-to-address pattern. -/
def decodesToPayToAddress (s : String) : Bool :=
  match hexDecodeString s with
  | some b => isPayToAddress b
  | none => false

/-! ## `timeLockedTransaction`: the locktime arithmetic -/

/-- Go conversion `uint32(x)` of an `int64`: the value modulo 2^32. -/
def toUint32 (x : Int) : Nat := (x % 4294967296).toNat

/-- Lines 316-320 of `timeLockedTransaction`, with the value of
`futureDate.Unix()` as argument: the value assigned to `tx.LockTime`.  The
addition of line 318 is a `uint32` addition, hence the reduction. -/
def lockTimeFor (futureUnix : Int) : Nat :=
  let locktime := toUint32 futureUnix
  if locktime < 500000000 then (toUint32 futureUnix + 500000000) % 4294967296
  else locktime

/-- What lines 334-340 print about a locktime. -/
inductive LockReading where
  /-- Line 336-337: the date `time.Unix(int64(tx.LockTime), 0)`, given by its
  Unix seconds. -/
  | timestamp (unix : Int)
  /-- Line 339: the block height. -/
  | blockHeight (height : Nat)
  deriving DecidableEq

/-- Lines 335-340 of `timeLockedTransaction`: how `tx.LockTime` is read. -/
def readLockTime (lockTime : Nat) : LockReading :=
  if lockTime ≥ 500000000 then LockReading.timestamp (Int.ofNat lockTime)
  else LockReading.blockHeight lockTime

/-- Days from 1970-01-01 to the given civil date of the proleptic Gregorian
calendar, as Go `time.Date` counts them for a normalised date. -/
def daysFromCivil (y m d : Int) : Int :=
  let y1 := if m ≤ 2 then y - 1 else y
  let era := y1 / 400
  let yoe := y1 - era * 400
  let mp := (m + 9) % 12
  let doy := (153 * mp + 2) / 5 + d - 1
  let doe := yoe * 365 + yoe / 4 - yoe / 100 + doy
  era * 146097 + doe - 719468

/-- The value of `time.Date(y, m, d, h, mi, s, 0, time.UTC).Unix()`. -/
def unixOfDate (y m d h mi s : Int) : Int :=
  daysFromCivil y m d * 86400 + h * 3600 + mi * 60 + s

/-- The `futureDate` of line 312, 2025-11-30T00:00:00Z, as Unix seconds. -/
def futureDate : Int := unixOfDate 2025 11 30 0 0 0

/-- The three figures `timeLockedTransaction` prints (lines 331-340):
the locktime, the requested date and the reading of the locktime. -/
structure LockReport where
  lockTime : Nat
  requested : Int
  reading : LockReading

/-- The locktime part of `timeLockedTransaction` for a date given by its
Unix seconds (the program runs it at `futureDate`). -/
def timeLockedTransaction (futureUnix : Int) : LockReport :=
  let lockTime := lockTimeFor futureUnix
  { lockTime := lockTime, requested := futureUnix, reading := readLockTime lockTime }

/-! ## The transaction builder, modelled from the specification

The builder package is imported by the program and is not part of the
examined source.  Sections 3 and 4 of the specification describe it; the
definitions below follow those sections.  Protocol constants and external
collaborators that the specification names without fixing are the fields of
`Protocol`. -/

/-- Modelled from the spec: the failure taxonomy of §4 and §7 (the builder's
error values are not in the examined source). -/
inductive BuildError where
  | invalidHex
  | duplicateInput
  | invalidAddress
  | nonPositiveAmount
  | payloadTooLarge
  | unknownScriptType
  | amountOverflow
  | insufficientFunds
  | transactionFinalized
  | keyNotFound
  | unsupportedScriptType
  deriving DecidableEq

/-- Modelled from the spec: the phases of the state machine of §4.6 (not in
the examined source).  The builder below records the phase: Building after
an addition, Funded after the change is computed, Signed after signing.  The
refusal of further additions once Signed is what §9 leaves open as "a policy
choice, not an observed requirement"; no operation below refuses on the
phase. -/
inductive Phase where
  | building
  | funded
  | signed
  | serialized
  deriving DecidableEq

/-- Modelled from the spec: the closed set of script variants of §9. -/
inductive ScriptType where
  | payToPubKeyHash
  | dataCarrier
  | unknown
  deriving DecidableEq

/-- The `bt.UTXO` value the program fills in at lines 104-116 (§3). -/
structure UTXO where
  txid : List Nat
  vout : Nat
  lockingScript : List Nat
  satoshis : Nat

/-- Modelled from the spec: the Input of §3. -/
structure Input where
  previousTxID : List Nat
  previousOutputIndex : Nat
  unlockingScript : List Nat
  sequenceNumber : Nat
  previousTxSatoshis : Nat
  previousTxScript : List Nat

/-- Modelled from the spec: the Output of §3. -/
structure Output where
  satoshis : Nat
  lockingScript : List Nat

/-- Modelled from the spec: the Transaction of §3, together with the two
pieces of assembler state that §4.5 and §4.6 require: the index of the
designated change output, if any, and the phase of the state machine. -/
structure Tx where
  version : Nat
  inputs : List Input
  outputs : List Output
  lockTime : Nat
  changeIndex : Option Nat
  phase : Phase

/-- Modelled from the spec: what the specification leaves to the protocol
and to the external collaborators of §6. -/
structure Protocol where
  /-- The address codec of §6: the public-key hash of an address. -/
  decodeAddress : String → Option (List Nat)
  /-- The network's maximum supply bound (§4.5), in satoshis. -/
  maxSupply : Nat
  /-- The protocol's script-size ceiling (§4.1). -/
  scriptCeiling : Nat
  /-- The size of the unlocking-script template of a pay-to-address input
  (§4.4). -/
  unlockTemplateSize : Nat
  /-- The version of a newly born transaction (§3, lifecycle). -/
  defaultVersion : Nat
  /-- The locktime of a newly born transaction (§3, lifecycle). -/
  defaultLockTime : Nat
  /-- The sequence number given to a new input. -/
  defaultSequence : Nat

/-- Modelled from the spec: one entry of the FeeQuote of §3. -/
structure Rate where
  bytesRate : Nat
  satoshisRate : Nat

/-- Modelled from the spec: the FeeQuote of §3, a rate for standard bytes and
a rate for data-carrier bytes, with the dust floor that §4.5 step 5 reads
from it. -/
structure FeeQuote where
  standard : Rate
  data : Rate
  dustFloor : Nat

/-- Modelled from the spec: the report of `estimateFeesPaid` (§4.5). -/
structure FeesPaid where
  totalFeePaid : Nat
  stdFeePaid : Nat
  dataFeePaid : Nat

/-- Modelled from the spec: a transaction is born empty, with the default
version and locktime (§3, lifecycle); `bt.NewTx()` in the program. -/
def newTx (P : Protocol) : Tx :=
  { version := P.defaultVersion, inputs := [], outputs := [],
    lockTime := P.defaultLockTime, changeIndex := none, phase := Phase.building }

/-- Modelled from the spec: `dataCarrierScript` of §4.1 puts the data opcode
before the raw payload. -/
def dataCarrierScript (payload : List Nat) : List Nat := OpRETURN :: payload

/-- Modelled from the spec: `isDataOutput` of §4.1, shape recognition of the
script written by `dataCarrierScript`. -/
def isDataOutput (s : List Nat) : Bool :=
  match s with
  | [] => false
  | op :: _ => op == OpRETURN

/-- Modelled from the spec: the classifier of §9. -/
def classify (s : List Nat) : ScriptType :=
  if isPayToAddress s then ScriptType.payToPubKeyHash
  else if isDataOutput s then ScriptType.dataCarrier
  else ScriptType.unknown

/-- The sum of the input amounts as a natural number (§4.5, simple sum). -/
def inputSum (tx : Tx) : Nat := (tx.inputs.map Input.previousTxSatoshis).sum

/-- The sum of the output amounts as a natural number (§4.5, simple sum). -/
def outputSum (tx : Tx) : Nat := (tx.outputs.map Output.satoshis).sum

/-- Modelled from the spec: `totalInputSatoshis() -> uint64` of §4.5, the
simple sum in a 64-bit unsigned result. -/
def totalInputSatoshis (tx : Tx) : Nat := inputSum tx % 18446744073709551616

/-- Modelled from the spec: `totalOutputSatoshis() -> uint64` of §4.5. -/
def totalOutputSatoshis (tx : Tx) : Nat := outputSum tx % 18446744073709551616

/-- Modelled from the spec: the builder's `InputCount()`, the number of the
ordered inputs of §3. -/
def inputCount (tx : Tx) : Nat := tx.inputs.length

/-- Modelled from the spec: the builder's `OutputCount()`, the number of the
ordered outputs of §3. -/
def outputCount (tx : Tx) : Nat := tx.outputs.length

/-- Modelled from the spec: the `HasDataOutputs` query of §4.1, true when
some output carries a data-carrier script. -/
def hasDataOutputs (tx : Tx) : Bool :=
  tx.outputs.any (fun o => isDataOutput o.lockingScript)

/-- Go subtraction of two `uint64` values (line 215 of the program, and the
fee paid in §4.4). -/
def sub64 (a b : Nat) : Nat := (a + 18446744073709551616 - b) % 18446744073709551616

/-- Modelled from the spec: the duplicate test of §4.2, whether
`(prevTxID, vout)` is already present in the transaction. -/
def spends (tx : Tx) (txid : List Nat) (vout : Nat) : Bool :=
  tx.inputs.any (fun i => i.previousTxID == txid && i.previousOutputIndex == vout)

/-- Modelled from the spec: the validation and insertion shared by
`addInputFromFields` and `addInputsFromUTXOs` (§4.2), with the overflow guard
of §4.5.  A transaction id that is not 32 bytes long is malformed input
(§3). -/
def addUTXO (P : Protocol) (tx : Tx) (u : UTXO) : Except BuildError Tx :=
  if u.txid.length ≠ 32 then Except.error BuildError.invalidHex
  else if spends tx u.txid u.vout = true then Except.error BuildError.duplicateInput
  else if totalInputSatoshis tx + u.satoshis > P.maxSupply then
    Except.error BuildError.amountOverflow
  else
    Except.ok { tx with
      inputs := tx.inputs ++
        [{ previousTxID := u.txid, previousOutputIndex := u.vout, unlockingScript := [],
           sequenceNumber := P.defaultSequence, previousTxSatoshis := u.satoshis,
           previousTxScript := u.lockingScript }],
      phase := Phase.building }

/-- Modelled from the spec: `addInputFromFields` of §4.2, the builder's
`From(prevTxID, vout, lockingScript, satoshis)`. -/
def addInputFrom (P : Protocol) (tx : Tx) (prevTxIDHex : String) (vout : Nat)
    (lockingScriptHex : String) (satoshis : Nat) : Except BuildError Tx :=
  match hexDecodeString prevTxIDHex, hexDecodeString lockingScriptHex with
  | some txid, some script =>
    addUTXO P tx { txid := txid, vout := vout, lockingScript := script, satoshis := satoshis }
  | _, _ => Except.error BuildError.invalidHex

/-- Modelled from the spec: `addInputsFromUTXOs` of §4.2, the builder's
`FromUTXOs`.  The first failure is the result, and the caller then keeps the
transaction it had: none of the batch is added. -/
def fromUTXOs (P : Protocol) (tx : Tx) : List UTXO → Except BuildError Tx
  | [] => Except.ok tx
  | u :: us =>
    match addUTXO P tx u with
    | Except.ok tx1 => fromUTXOs P tx1 us
    | Except.error e => Except.error e

/-- Modelled from the spec: `payToAddress` of §4.3, with the overflow guard
of §4.5. -/
def payToAddress (P : Protocol) (tx : Tx) (address : String) (satoshis : Nat) :
    Except BuildError Tx :=
  if satoshis = 0 then Except.error BuildError.nonPositiveAmount
  else
    match P.decodeAddress address with
    | none => Except.error BuildError.invalidAddress
    | some pubKeyHash =>
      if totalOutputSatoshis tx + satoshis > P.maxSupply then
        Except.error BuildError.amountOverflow
      else
        Except.ok { tx with
          outputs := tx.outputs ++
            [{ satoshis := satoshis, lockingScript := lockingScriptToAddress pubKeyHash }],
          phase := Phase.building }

/-- Modelled from the spec: `addOpReturnOutput` of §4.3: the output carries 0
satoshis and the data-carrier script of the payload; the one failure is a
payload beyond the size ceiling. -/
def addOpReturnOutput (P : Protocol) (tx : Tx) (data : List Nat) : Except BuildError Tx :=
  if data.length > P.scriptCeiling then Except.error BuildError.payloadTooLarge
  else
    Except.ok { tx with
      outputs := tx.outputs ++ [{ satoshis := 0, lockingScript := dataCarrierScript data }],
      phase := Phase.building }

/-! ### Variable-length integers and the fee model (§4.4) -/

/-- The `k` low bytes of `n`, least significant first. -/
def littleEndian : Nat → Nat → List Nat
  | 0, _ => []
  | k + 1, n => n % 256 :: littleEndian k (n / 256)

/-- The value of a little-endian byte string. -/
def fromLittleEndian : List Nat → Nat
  | [] => 0
  | b :: bs => b + 256 * fromLittleEndian bs

/-- Modelled from the spec: the variable-length integer of §4.7, in the
encoding of the Bitcoin-style wire format the specification targets: one
byte below `0xfd`, else a marker byte and 2, 4 or 8 little-endian bytes. -/
def varInt (n : Nat) : List Nat :=
  if n < 0xfd then [n]
  else if n ≤ 0xffff then 0xfd :: littleEndian 2 n
  else if n ≤ 0xffffffff then 0xfe :: littleEndian 4 n
  else 0xff :: littleEndian 8 n

/-- The number of bytes `varInt n` takes. -/
def varIntSize (n : Nat) : Nat :=
  if n < 0xfd then 1
  else if n ≤ 0xffff then 3
  else if n ≤ 0xffffffff then 5
  else 9

/-- Modelled from the spec: the unlocking-script length of §4.4: measured for
a signed input; for an unsigned one, the template size of the type of its
previous locking script.  Only the pay-to-address type has a template;
otherwise the estimate fails with `UnknownScriptTypeError`. -/
def unlockingSize (P : Protocol) (i : Input) : Except BuildError Nat :=
  match i.unlockingScript with
  | _ :: _ => Except.ok i.unlockingScript.length
  | [] =>
    match classify i.previousTxScript with
    | ScriptType.payToPubKeyHash => Except.ok P.unlockTemplateSize
    | ScriptType.dataCarrier => Except.error BuildError.unknownScriptType
    | ScriptType.unknown => Except.error BuildError.unknownScriptType

/-- Modelled from the spec: the per-input overhead of §4.4, summed over the
inputs: outpoint (32 + 4), length-prefixed unlocking script, sequence (4). -/
def inputsSize (P : Protocol) : List Input → Except BuildError Nat
  | [] => Except.ok 0
  | i :: rest =>
    match unlockingSize P i with
    | Except.error e => Except.error e
    | Except.ok n =>
      match inputsSize P rest with
      | Except.error e => Except.error e
      | Except.ok m => Except.ok (32 + 4 + varIntSize n + n + 4 + m)

/-- Modelled from the spec: the per-output overhead of §4.4: 8-byte value,
script length, script bytes. -/
def outputSize (o : Output) : Nat :=
  8 + varIntSize o.lockingScript.length + o.lockingScript.length

/-- Modelled from the spec: the per-output overhead of §4.4 summed over the
data-carrier outputs. -/
def dataBytes (outs : List Output) : Nat :=
  ((outs.filter (fun o => isDataOutput o.lockingScript)).map outputSize).sum

/-- Modelled from the spec: the per-output overhead of §4.4 summed over the
other outputs. -/
def standardOutputBytes (outs : List Output) : Nat :=
  ((outs.filter (fun o => !isDataOutput o.lockingScript)).map outputSize).sum

/-- Modelled from the spec: `estimateSize` of §4.4 by fee category: the
standard bytes (header, inputs, counts, standard outputs) and the bytes of
the data-carrier outputs. -/
def estimateSizeWithTypes (P : Protocol) (tx : Tx) : Except BuildError (Nat × Nat) :=
  match inputsSize P tx.inputs with
  | Except.error e => Except.error e
  | Except.ok ins =>
    Except.ok
      (4 + varIntSize tx.inputs.length + ins + varIntSize tx.outputs.length
          + standardOutputBytes tx.outputs + 4,
       dataBytes tx.outputs)

/-- Modelled from the spec: `estimateSize(tx) -> bytes` of §4.4. -/
def estimateSize (P : Protocol) (tx : Tx) : Except BuildError Nat :=
  match estimateSizeWithTypes P tx with
  | Except.error e => Except.error e
  | Except.ok (std, data) => Except.ok (std + data)

/-- Modelled from the spec: `ceil(size * satoshisPerByte)` of §4.4 in integer
arithmetic, the rate being `satoshisRate` satoshis per `bytesRate` bytes. -/
def feeFor (size : Nat) (r : Rate) : Nat :=
  (size * r.satoshisRate + r.bytesRate - 1) / r.bytesRate

/-- Modelled from the spec: `estimateFeesPaid` of §4.5, the fee of the
estimated size with its per-category breakdown: the bytes of each category
are charged at the rate of that category, rounded up.  It is the same
computation as step 3 of `changeToAddress`. -/
def estimateFeesPaid (P : Protocol) (tx : Tx) (q : FeeQuote) : Except BuildError FeesPaid :=
  match estimateSizeWithTypes P tx with
  | Except.error e => Except.error e
  | Except.ok (std, data) =>
    Except.ok { totalFeePaid := feeFor std q.standard + feeFor data q.data,
                stdFeePaid := feeFor std q.standard,
                dataFeePaid := feeFor data q.data }

/-- Modelled from the spec: `estimateFee(tx, feeQuote) -> satoshis` of
§4.4. -/
def estimateFee (P : Protocol) (tx : Tx) (q : FeeQuote) : Except BuildError Nat :=
  match estimateFeesPaid P tx q with
  | Except.error e => Except.error e
  | Except.ok fees => Except.ok fees.totalFeePaid

/-- Modelled from the spec: `estimateIsFeePaidEnough` of §4.4:
`(totalInput - totalOutput) >= estimateFee(tx, feeQuote)`. -/
def estimateIsFeePaidEnough (P : Protocol) (tx : Tx) (q : FeeQuote) : Except BuildError Bool :=
  match estimateFee P tx q with
  | Except.error e => Except.error e
  | Except.ok fee =>
    Except.ok (decide (sub64 (totalInputSatoshis tx) (totalOutputSatoshis tx) ≥ fee))

/-! ### Change (§4.5) -/

/-- Modelled from the spec: the idempotence clause of §4.5: a recomputation
first takes the designated change output out, so that it is replaced rather
than joined by a second one. -/
def dropChange (tx : Tx) : Tx :=
  match tx.changeIndex with
  | none => tx
  | some k => { tx with outputs := tx.outputs.eraseIdx k, changeIndex := none }

/-- Modelled from the spec: steps 1 to 6 of `changeToAddress` (§4.5) on a
transaction without a designated change output, with the insufficient-funds
failure of §7. -/
def computeChange (P : Protocol) (base : Tx) (pubKeyHash : List Nat) (q : FeeQuote) :
    Except BuildError Tx :=
  if totalInputSatoshis base ≤ totalOutputSatoshis base then
    Except.error BuildError.insufficientFunds
  else
    -- step 1
    let available := totalInputSatoshis base - totalOutputSatoshis base
    -- step 2
    let tentative : Tx :=
      { base with
        outputs := base.outputs ++
          [{ satoshis := 0, lockingScript := lockingScriptToAddress pubKeyHash }] }
    -- step 3
    match estimateFee P tentative q with
    | Except.error e => Except.error e
    | Except.ok fee =>
      -- steps 4 and 5
      if available ≤ fee ∨ available - fee < q.dustFloor then
        Except.ok { base with phase := Phase.funded }
      else
        -- step 6
        Except.ok { base with
          outputs := base.outputs ++
            [{ satoshis := available - fee,
               lockingScript := lockingScriptToAddress pubKeyHash }],
          changeIndex := some base.outputs.length,
          phase := Phase.funded }

/-- Modelled from the spec: `changeToAddress` of §4.5, the builder's
`ChangeToAddress`: the address is decoded, a previously designated change
output is taken out, and the change is computed. -/
def changeToAddress (P : Protocol) (tx : Tx) (address : String) (q : FeeQuote) :
    Except BuildError Tx :=
  match P.decodeAddress address with
  | none => Except.error BuildError.invalidAddress
  | some pubKeyHash => computeChange P (dropChange tx) pubKeyHash q

/-! ### Signing (§4.6) -/

/-- Modelled from the spec: one step of `fillAllInputs` (§4.6): the input at
`idx`, if unsigned, gets the unlocking script that `unlock` assembles from
the key of its public-key hash and the transaction as it stands. -/
def fillInput (lookup : List Nat → Option (List Nat))
    (unlock : List Nat → Tx → Nat → List Nat) (tx : Tx) (idx : Nat) : Except BuildError Tx :=
  match tx.inputs.get? idx with
  | none => Except.ok tx
  | some i =>
    match i.unlockingScript with
    | _ :: _ => Except.ok tx
    | [] =>
      match classify i.previousTxScript with
      | ScriptType.payToPubKeyHash =>
        match lookup ((i.previousTxScript.drop 3).take 20) with
        | none => Except.error BuildError.keyNotFound
        | some key =>
          Except.ok { tx with
            inputs := tx.inputs.set idx { i with unlockingScript := unlock key tx idx } }
      | ScriptType.dataCarrier => Except.error BuildError.unsupportedScriptType
      | ScriptType.unknown => Except.error BuildError.unsupportedScriptType

/-- Modelled from the spec: §4.6, signing order follows input order. -/
def fillInputs (lookup : List Nat → Option (List Nat))
    (unlock : List Nat → Tx → Nat → List Nat) (tx : Tx) : List Nat → Except BuildError Tx
  | [] => Except.ok tx
  | idx :: rest =>
    match fillInput lookup unlock tx idx with
    | Except.error e => Except.error e
    | Except.ok tx1 => fillInputs lookup unlock tx1 rest

/-- Modelled from the spec: `fillAllInputs(keyProvider)` of §4.6; the key
provider `lookup` and the signature scheme `unlock` are external.  On
success the transaction is Signed. -/
def fillAllInputs (lookup : List Nat → Option (List Nat))
    (unlock : List Nat → Tx → Nat → List Nat) (tx : Tx) : Except BuildError Tx :=
  match fillInputs lookup unlock tx (List.range tx.inputs.length) with
  | Except.error e => Except.error e
  | Except.ok tx1 => Except.ok { tx1 with phase := Phase.signed }

/-! ### Serialisation (§4.7) -/

/-- Modelled from the spec: one input on the wire (§4.7): previous
transaction id in reversed byte order, output index, length-prefixed
unlocking script, sequence number. -/
def inputBytes (i : Input) : List Nat :=
  i.previousTxID.reverse ++ littleEndian 4 i.previousOutputIndex
    ++ varInt i.unlockingScript.length ++ i.unlockingScript
    ++ littleEndian 4 i.sequenceNumber

/-- Modelled from the spec: one output on the wire (§4.7): 8-byte
little-endian value, length-prefixed locking script. -/
def outputBytes (o : Output) : List Nat :=
  littleEndian 8 o.satoshis ++ varInt o.lockingScript.length ++ o.lockingScript

/-- Modelled from the spec: `toBytes` of §4.7, the builder's `Bytes()`. -/
def toBytes (tx : Tx) : List Nat :=
  littleEndian 4 tx.version
    ++ varInt tx.inputs.length ++ (tx.inputs.map inputBytes).flatten
    ++ varInt tx.outputs.length ++ (tx.outputs.map outputBytes).flatten
    ++ littleEndian 4 tx.lockTime

/-- Modelled from the spec: `toHex` of §4.7, the builder's `String()`. -/
def toHex (tx : Tx) : String := hexEncodeToString (toBytes tx)

/-- A byte string holds bytes. -/
@[reducible] def isByteString (bs : List Nat) : Prop := ∀ b ∈ bs, b < 256

/-- The fields of a transaction fit the widths §3 gives them. -/
structure WellFormed (tx : Tx) : Prop where
  version_lt : tx.version < 4294967296
  lockTime_lt : tx.lockTime < 4294967296
  txid_len : ∀ i ∈ tx.inputs, i.previousTxID.length = 32
  txid_bytes : ∀ i ∈ tx.inputs, isByteString i.previousTxID
  vout_lt : ∀ i ∈ tx.inputs, i.previousOutputIndex < 4294967296
  sequence_lt : ∀ i ∈ tx.inputs, i.sequenceNumber < 4294967296
  unlocking_bytes : ∀ i ∈ tx.inputs, isByteString i.unlockingScript
  satoshis_lt : ∀ o ∈ tx.outputs, o.satoshis < 18446744073709551616
  locking_bytes : ∀ o ∈ tx.outputs, isByteString o.lockingScript

/-- A lowercase hexadecimal digit. -/
def isLowerHexDigit (c : Char) : Bool :=
  (48 ≤ c.toNat && c.toNat ≤ 57) || (97 ≤ c.toNat && c.toNat ≤ 102)

/-! ## The example functions, run over the modelled builder

Each function returns the figures it prints; `none` is an early `return`
after a logged error (or a panic of a `must` helper). -/

/-- The effect of a builder call whose error is not acted upon (`_ = ...`,
or a log without `return`): on failure the transaction stays as it was. -/
def orKeep (r : Except BuildError Tx) (tx : Tx) : Tx :=
  match r with
  | Except.ok tx1 => tx1
  | Except.error _ => tx

/-- The address of lines 66, 74, 158, 166, 207, 232, 264, 270 and 329. -/
def address1NRoy : String := "1NRoySJ9Lvby6DuE2UQYnyT67AASwNZxGb"

/-- The address of lines 126, 208 and 359. -/
def address1C8bz : String := "1C8bzHM8XFBHZ2ZZVvFy2NSoAZbwCXAicL"

/-- The payload of line 362, `[]byte("You are using go-bt!")` (ASCII). -/
def opReturnData : List Nat := "You are using go-bt!".toList.map Char.toNat

/-- `transactionFromUTXOs` (lines 98-136): input count, output count, input
total, output total. -/
def transactionFromUTXOs (P : Protocol) : Option (Nat × Nat × Nat × Nat) :=
  match mustDecodeHex txid11b4, mustLockingScript scriptEb0b,
        mustDecodeHex txidB7b0, mustLockingScript script9cbe with
  | some id1, some ls1, some id2, some ls2 =>
    let tx := newTx P
    let utxo1 : UTXO := { txid := id1, vout := 0, satoshis := 1000, lockingScript := ls1 }
    let utxo2 : UTXO := { txid := id2, vout := 0, satoshis := 2000, lockingScript := ls2 }
    match fromUTXOs P tx [utxo1, utxo2] with
    | Except.error _ => none
    | Except.ok tx1 =>
      match payToAddress P tx1 address1C8bz 2500 with
      | Except.error _ => none
      | Except.ok tx2 =>
        some (inputCount tx2, outputCount tx2, totalInputSatoshis tx2, totalOutputSatoshis tx2)
  | _, _, _, _ => none

/-- The transaction of `basicTransaction` before line 74: the input of
lines 54-59, whose previous locking script is the literal of line 57, and
the payment of line 66. -/
def basicPaymentTx (P : Protocol) : Option Tx :=
  match addInputFrom P (newTx P) txid11b4 0 scriptLine57 1500 with
  | Except.error _ => none
  | Except.ok tx1 =>
    match payToAddress P tx1 address1NRoy 1000 with
    | Except.error _ => none
    | Except.ok tx2 => some tx2

/-- The error of a builder call, if it failed. -/
def errorOf (r : Except BuildError Tx) : Option BuildError :=
  match r with
  | Except.ok _ => none
  | Except.error e => some e

/-- The value of a fallible query, if it succeeded. -/
def errorFree {α : Type} (r : Except BuildError α) : Option α :=
  match r with
  | Except.ok a => some a
  | Except.error _ => none

/-- The transaction of `transactionWithChange` before line 166. -/
def paymentTx (P : Protocol) : Option Tx :=
  match addInputFrom P (newTx P) txid11b4 0 scriptEb0b 1500 with
  | Except.error _ => none
  | Except.ok tx1 =>
    match payToAddress P tx1 address1NRoy 1000 with
    | Except.error _ => none
    | Except.ok tx2 => some tx2

/-- `transactionWithChange` (lines 140-176), the fee quote of line 165 being
the argument: input total, output total, output count. -/
def transactionWithChange (P : Protocol) (feeQuote : FeeQuote) : Option (Nat × Nat × Nat) :=
  match paymentTx P with
  | none => none
  | some tx2 =>
    let tx3 := orKeep (changeToAddress P tx2 address1NRoy feeQuote) tx2
    some (totalInputSatoshis tx3, totalOutputSatoshis tx3, outputCount tx3)

/-- `transactionAmounts` (lines 180-216): input total, output total and their
`uint64` difference. -/
def transactionAmounts (P : Protocol) : Option (Nat × Nat × Nat) :=
  match addInputFrom P (newTx P) txid11b4 0 scriptEb0b 1500 with
  | Except.error _ => none
  | Except.ok tx1 =>
    match addInputFrom P tx1 txidB7b0 0 script9cbe 2000 with
    | Except.error _ => none
    | Except.ok tx2 =>
      let tx3 := orKeep (payToAddress P tx2 address1NRoy 1000) tx2
      let tx4 := orKeep (payToAddress P tx3 address1C8bz 1500) tx3
      let inputAmount := totalInputSatoshis tx4
      let outputAmount := totalOutputSatoshis tx4
      some (inputAmount, outputAmount, sub64 inputAmount outputAmount)

/-- The transaction of `transactionSerialization` and `feeExamples` after
their two discarded calls (lines 225-232, 257-264). -/
def lenientPaymentTx (P : Protocol) : Tx :=
  let tx := newTx P
  let tx1 := orKeep (addInputFrom P tx txid11b4 0 scriptEb0b 1500) tx
  orKeep (payToAddress P tx1 address1NRoy 1000) tx1

/-- `transactionSerialization` (lines 220-248): the serialised hex string
and the number of serialised bytes. -/
def transactionSerialization (P : Protocol) : String × Nat :=
  let tx := lenientPaymentTx P
  let serializedHex := toHex tx
  let serializedBytes := toBytes tx
  (serializedHex, serializedBytes.length)

/-- The figures `feeExamples` prints. -/
structure FeeFigures where
  size : Except BuildError Nat
  isEnough : Except BuildError Bool
  fees : Except BuildError FeesPaid
  totalInput : Nat
  totalOutput : Nat

/-- `feeExamples` (lines 252-302), the fee quote of line 267 being the
argument. -/
def feeExamples (P : Protocol) (feeQuote : FeeQuote) : Option FeeFigures :=
  let tx := lenientPaymentTx P
  match changeToAddress P tx address1NRoy feeQuote with
  | Except.error _ => none
  | Except.ok tx1 =>
    some { size := estimateSize P tx1,
           isEnough := estimateIsFeePaidEnough P tx1 feeQuote,
           fees := estimateFeesPaid P tx1 feeQuote,
           totalInput := totalInputSatoshis tx1,
           totalOutput := totalOutputSatoshis tx1 }

/-- The transaction of `transactionWithOpReturn` after its two discarded
calls (lines 352-359). -/
def lenientOpReturnTx (P : Protocol) : Tx :=
  let tx := newTx P
  let tx1 := orKeep (addInputFrom P tx txidB7b0 0 script9cbe 1000) tx
  orKeep (payToAddress P tx1 address1C8bz 900) tx1

/-- `transactionWithOpReturn` (lines 347-372): output count, whether there
are data outputs, and the serialised hex string. -/
def transactionWithOpReturn (P : Protocol) : Option (Nat × Bool × String) :=
  let tx2 := lenientOpReturnTx P
  match addOpReturnOutput P tx2 opReturnData with
  | Except.error _ => none
  | Except.ok tx3 => some (outputCount tx3, hasDataOutputs tx3, toHex tx3)

/-- The public-key hash inside a pay-to-address script literal. -/
def pubKeyHashOf (scriptHex : String) : Option (List Nat) :=
  (hexDecodeString scriptHex).map (fun s => (s.drop 3).take 20)

/-- A concrete protocol for running the examples.  The address codec is a
stand-in for the external collaborator: it knows the two addresses of the
program and answers with 20-byte hashes taken from the program's script
literals. -/
def demoProtocol : Protocol :=
  { decodeAddress := fun a =>
      if a = address1NRoy then pubKeyHashOf scriptEb0b
      else if a = address1C8bz then pubKeyHashOf script9cbe
      else none,
    maxSupply := 2100000000000000,
    scriptCeiling := 100000,
    unlockTemplateSize := 107,
    defaultVersion := 1,
    defaultLockTime := 0,
    defaultSequence := 4294967295 }

/-- A fee quote of 33 satoshis per 50 bytes: the 226 estimated bytes of the
one-input, two-output transaction then cost 150 satoshis. -/
def demoQuote : FeeQuote :=
  { standard := { bytesRate := 50, satoshisRate := 33 },
    data := { bytesRate := 50, satoshisRate := 33 },
    dustFloor := 1 }

/-- A key provider that knows every key, for running the examples. -/
def demoLookup (_pubKeyHash : List Nat) : Option (List Nat) := some [1]

/-- A stand-in for the external signature scheme: an unlocking script of
the template size. -/
def demoUnlock (_key : List Nat) (_tx : Tx) (_idx : Nat) : List Nat := List.replicate 107 0

/-- The transaction of `feeExamples` after line 270, under the concrete
protocol and quote. -/
def changedTx : Tx :=
  orKeep (changeToAddress demoProtocol (lenientPaymentTx demoProtocol) address1NRoy demoQuote)
    (lenientPaymentTx demoProtocol)

/-- The lines of the builder calls of `basicTransaction` (lines 48-94) that
fail when the function runs over the modelled builder, in order.  The key
decoder of line 80 is external; its literal is taken to decode. -/
def basicTransactionFailures (P : Protocol) (feeQuote : FeeQuote)
    (lookup : List Nat → Option (List Nat)) (unlock : List Nat → Tx → Nat → List Nat) :
    List Nat :=
  match addInputFrom P (newTx P) txid11b4 0 scriptLine57 1500 with
  | Except.error _ => [54]
  | Except.ok tx1 =>
    match payToAddress P tx1 address1NRoy 1000 with
    | Except.error _ => [66]
    | Except.ok tx2 =>
      let changed := changeToAddress P tx2 address1NRoy feeQuote
      let tx3 := orKeep changed tx2
      let signed := fillAllInputs lookup unlock tx3
      (if (errorOf changed).isSome then [74] else [])
        ++ (if (errorOf signed).isSome then [86] else [])

/-! ## Building a transaction from a list of calls -/

/-- The three builder calls that add inputs and payment outputs. -/
inductive BuilderOp where
  | From (prevTxID : String) (vout : Nat) (lockingScript : String) (satoshis : Nat)
  | FromUTXOs (utxos : List UTXO)
  | PayToAddress (address : String) (satoshis : Nat)

/-- The call made on a transaction. -/
def BuilderOp.apply (P : Protocol) (tx : Tx) : BuilderOp → Except BuildError Tx
  | BuilderOp.From prevTxID vout lockingScript satoshis =>
    addInputFrom P tx prevTxID vout lockingScript satoshis
  | BuilderOp.FromUTXOs utxos => fromUTXOs P tx utxos
  | BuilderOp.PayToAddress address satoshis => payToAddress P tx address satoshis

/-- The input amounts a call adds when it succeeds. -/
def BuilderOp.inputAmounts : BuilderOp → List Nat
  | BuilderOp.From _ _ _ satoshis => [satoshis]
  | BuilderOp.FromUTXOs utxos => utxos.map UTXO.satoshis
  | BuilderOp.PayToAddress _ _ => []

/-- The output amounts a call adds when it succeeds. -/
def BuilderOp.outputAmounts : BuilderOp → List Nat
  | BuilderOp.From _ _ _ _ => []
  | BuilderOp.FromUTXOs _ => []
  | BuilderOp.PayToAddress _ satoshis => [satoshis]

/-- The calls run in order on a transaction.  A call that fails leaves the
transaction as it was; the result is the transaction and the calls that
succeeded. -/
def build (P : Protocol) : Tx → List BuilderOp → Tx × List BuilderOp
  | tx, [] => (tx, [])
  | tx, op :: rest =>
    match op.apply P tx with
    | Except.ok tx1 => ((build P tx1 rest).1, op :: (build P tx1 rest).2)
    | Except.error _ => build P tx rest

/-- The calls of `transactionAmounts` (lines 186-208). -/
def amountsOps : List BuilderOp :=
  [BuilderOp.From txid11b4 0 scriptEb0b 1500, BuilderOp.From txidB7b0 0 script9cbe 2000,
   BuilderOp.PayToAddress address1NRoy 1000, BuilderOp.PayToAddress address1C8bz 1500]

/-! ## The error handling of the example functions

The control flow of each example function around its fallible calls,
embedded statement by statement.  Whether a call fails is left open: a run
is driven by an outcome function from the source line of the call. -/

namespace Flow

/-- The fallible calls of the program. -/
inductive Call where
  | From
  | FromUTXOs
  | PayToAddress
  | ChangeToAddress
  | AddOpReturnOutput
  | FillAllInputs
  | DecodeWIF
  | EstimateSize
  | EstimateIsFeePaidEnough
  | EstimateFeesPaid
  deriving DecidableEq

/-- The fallible builder calls; the others are a key decoder and queries. -/
def Call.isBuilder (c : Call) : Bool :=
  match c with
  | Call.From => true
  | Call.FromUTXOs => true
  | Call.PayToAddress => true
  | Call.ChangeToAddress => true
  | Call.AddOpReturnOutput => true
  | Call.FillAllInputs => true
  | Call.DecodeWIF => false
  | Call.EstimateSize => false
  | Call.EstimateIsFeePaidEnough => false
  | Call.EstimateFeesPaid => false

/-- What the program does with the error of a call. -/
inductive OnError where
  /-- `if err != nil { log.Printf(...); return }`. -/
  | logReturn
  /-- `if err != nil { log.Printf(...) }`, and the function goes on. -/
  | logOnly
  /-- `if err != nil { log.Printf(...) } else { fmt.Printf(...) }`, the
  print standing on the given line, and the function goes on. -/
  | logElsePrint (line : Nat)
  /-- `_ = call(...)`. -/
  | discard
  deriving DecidableEq

/-- A statement of an example function: a fallible call with its source line
and its error handling, or a print of figures of the transaction. -/
inductive Stmt where
  | call (c : Call) (line : Nat) (h : OnError)
  | print (line : Nat)
  deriving DecidableEq

/-- What a run does, in order. -/
inductive Event where
  | called (c : Call) (line : Nat) (h : OnError) (failed : Bool)
  | logged
  | printed (line : Nat)
  deriving DecidableEq

/-- A run of a statement list; `fails line` tells whether the call on that
line returns an error. -/
def run (fails : Nat → Bool) : List Stmt → List Event
  | [] => []
  | Stmt.print line :: rest => Event.printed line :: run fails rest
  | Stmt.call c line h :: rest =>
    if fails line then
      match h with
      | OnError.logReturn => [Event.called c line h true, Event.logged]
      | OnError.logOnly => Event.called c line h true :: Event.logged :: run fails rest
      | OnError.logElsePrint _ => Event.called c line h true :: Event.logged :: run fails rest
      | OnError.discard => Event.called c line h true :: run fails rest
    else
      match h with
      | OnError.logElsePrint p =>
        Event.called c line h false :: Event.printed p :: run fails rest
      | _ => Event.called c line h false :: run fails rest

/-- `basicTransaction` (lines 48-94). -/
def basicTransaction : List Stmt :=
  [Stmt.call Call.From 54 OnError.logReturn,
   Stmt.call Call.PayToAddress 66 OnError.logReturn,
   Stmt.call Call.ChangeToAddress 74 OnError.logOnly,
   Stmt.call Call.DecodeWIF 80 OnError.logReturn,
   Stmt.call Call.FillAllInputs 86 OnError.logReturn,
   Stmt.print 92, Stmt.print 93]

/-- `transactionFromUTXOs` (lines 98-136). -/
def transactionFromUTXOs : List Stmt :=
  [Stmt.call Call.FromUTXOs 119 OnError.logReturn,
   Stmt.call Call.PayToAddress 126 OnError.logReturn,
   Stmt.print 132, Stmt.print 133, Stmt.print 134, Stmt.print 135]

/-- `transactionWithChange` (lines 140-176). -/
def transactionWithChange : List Stmt :=
  [Stmt.call Call.From 146 OnError.logReturn,
   Stmt.call Call.PayToAddress 158 OnError.logReturn,
   Stmt.call Call.ChangeToAddress 166 (OnError.logElsePrint 170),
   Stmt.print 173, Stmt.print 174, Stmt.print 175]

/-- `transactionAmounts` (lines 180-216).  The second `From` runs only when
the first succeeded, and an error of either is logged and returned from
(lines 192-204). -/
def transactionAmounts : List Stmt :=
  [Stmt.call Call.From 186 OnError.logReturn,
   Stmt.call Call.From 193 OnError.logReturn,
   Stmt.call Call.PayToAddress 207 OnError.discard,
   Stmt.call Call.PayToAddress 208 OnError.discard,
   Stmt.print 213, Stmt.print 214, Stmt.print 215]

/-- `transactionSerialization` (lines 220-248). -/
def transactionSerialization : List Stmt :=
  [Stmt.call Call.From 225 OnError.discard,
   Stmt.call Call.PayToAddress 232 OnError.discard,
   Stmt.print 236, Stmt.print 240, Stmt.print 244, Stmt.print 247]

/-- `feeExamples` (lines 252-302). -/
def feeExamples : List Stmt :=
  [Stmt.call Call.From 257 OnError.discard,
   Stmt.call Call.PayToAddress 264 OnError.discard,
   Stmt.call Call.ChangeToAddress 270 OnError.logReturn,
   Stmt.call Call.EstimateSize 277 (OnError.logElsePrint 281),
   Stmt.call Call.EstimateIsFeePaidEnough 285 (OnError.logElsePrint 289),
   Stmt.call Call.EstimateFeesPaid 293 (OnError.logElsePrint 297),
   Stmt.print 300, Stmt.print 301]

/-- `timeLockedTransaction` (lines 306-343); the print of lines 335-340 is
one statement. -/
def timeLockedTransaction : List Stmt :=
  [Stmt.call Call.From 322 OnError.discard,
   Stmt.call Call.PayToAddress 329 OnError.discard,
   Stmt.print 331, Stmt.print 332, Stmt.print 335]

/-- `transactionWithOpReturn` (lines 347-372). -/
def transactionWithOpReturn : List Stmt :=
  [Stmt.call Call.From 352 OnError.discard,
   Stmt.call Call.PayToAddress 359 OnError.discard,
   Stmt.call Call.AddOpReturnOutput 363 OnError.logReturn,
   Stmt.print 369, Stmt.print 370, Stmt.print 371]

/-- The example functions `main` runs (lines 19-41). -/
def examplePrograms : List (List Stmt) :=
  [basicTransaction, transactionFromUTXOs, transactionWithChange, transactionAmounts,
   transactionSerialization, feeExamples, timeLockedTransaction, transactionWithOpReturn]

/-- A builder call or a print of figures of the transaction. -/
def Event.usesTx (e : Event) : Bool :=
  match e with
  | Event.called c _ _ _ => c.isBuilder
  | Event.logged => false
  | Event.printed _ => true

/-- After every failed builder call of the run, no further builder call is
made and nothing is printed. -/
def stopsAfterFailure : List Event → Bool
  | [] => true
  | Event.called c _ _ true :: rest =>
    if c.isBuilder then rest.all (fun e => !e.usesTx) && stopsAfterFailure rest
    else stopsAfterFailure rest
  | _ :: rest => stopsAfterFailure rest

/-- The source lines of the builder calls whose error is checked with
`if err != nil { log.Printf(...); return }`. -/
def guardedLines : List Nat := [54, 66, 86, 119, 126, 146, 158, 186, 193, 270, 363]

/-- The source lines of the builder calls whose result is discarded with
`_ =`. -/
def discardedLines : List Nat := [207, 208, 225, 232, 257, 264, 322, 329, 352, 359]

/-- The source lines of the two builder calls whose error is logged without
`return` (lines 75-77, 167-171). -/
def logOnlyLines : List Nat := [74, 166]

/-- The source lines of the builder calls of a statement list, in order. -/
def builderLines : List Stmt → List Nat
  | [] => []
  | Stmt.print _ :: rest => builderLines rest
  | Stmt.call c line _ :: rest =>
    if c.isBuilder then line :: builderLines rest else builderLines rest

/-- The source lines of all the fallible calls of a statement list. -/
def callLines : List Stmt → List Nat
  | [] => []
  | Stmt.print _ :: rest => callLines rest
  | Stmt.call _ line _ :: rest => line :: callLines rest

/-- The outcome function under which exactly the calls on the given lines
fail. -/
def failingAt (lines : List Nat) : Nat → Bool := fun line => lines.contains line

/-- Every choice of lines out of a list. -/
def choices : List Nat → List (List Nat)
  | [] => [[]]
  | a :: l => choices l ++ (choices l).map (fun s => a :: s)

/-- What a run shows after each failed call, by the source line of the call:
after a failure on one of `guardedLines` the run holds the log entry and
nothing else; after a failure on one of `discardedLines` the run goes
straight on to a builder call or a print. -/
def handledBySite : List Event → Bool
  | [] => true
  | Event.called _ line _ true :: rest =>
    (if guardedLines.contains line then decide (rest = [Event.logged])
     else if discardedLines.contains line then
       (match rest with
        | e :: _ => e.usesTx
        | [] => false)
     else true) && handledBySite rest
  | _ :: rest => handledBySite rest

end Flow


/-! # Theorems -/

/-! ## The locktime of `timeLockedTransaction` -/

theorem toUint32_lt (x : Int) : toUint32 x < 4294967296 := by
  unfold toUint32
  have h1 : 0 ≤ x % 4294967296 := Int.emod_nonneg x (by norm_num)
  have h2 : x % 4294967296 < 4294967296 := Int.emod_lt_of_pos x (by norm_num)
  omega

theorem toUint32_of_range (t : Int) (h0 : 0 ≤ t) (h1 : t < 4294967296) :
    (toUint32 t : Int) = t := by
  unfold toUint32
  rw [Int.emod_eq_of_lt h0 h1]
  omega

/-- C4: the reading of `tx.LockTime` at lines 335-340 is a Unix-timestamp
lock exactly when the value is at least 500,000,000 and a block-height lock
exactly when it is below; 500,000,000 itself is read as a timestamp and
499,999,999 as a block height. -/
theorem readLockTime_threshold (lockTime : Nat) :
    (readLockTime lockTime = LockReading.timestamp (Int.ofNat lockTime)
        ↔ lockTime ≥ 500000000)
    ∧ (readLockTime lockTime = LockReading.blockHeight lockTime ↔ lockTime < 500000000)
    ∧ readLockTime 500000000 = LockReading.timestamp 500000000
    ∧ readLockTime 499999999 = LockReading.blockHeight 499999999 := by
  refine ⟨?_, ?_, by decide, by decide⟩
  · constructor
    · intro h
      by_contra hlt
      simp [readLockTime, hlt] at h
    · intro h
      simp [readLockTime, h]
  · constructor
    · intro h
      by_contra hge
      have : lockTime ≥ 500000000 := by omega
      simp [readLockTime, this] at h
    · intro h
      have : ¬ lockTime ≥ 500000000 := by omega
      simp [readLockTime, this]

/-- The two branches of lines 316-320. -/
theorem lockTimeFor_branches (futureUnix : Int) :
    500000000 ≤ lockTimeFor futureUnix
    ∧ (500000000 ≤ toUint32 futureUnix → lockTimeFor futureUnix = toUint32 futureUnix)
    ∧ (toUint32 futureUnix < 500000000 →
        lockTimeFor futureUnix = toUint32 futureUnix + 500000000
        ∧ toUint32 futureUnix + 500000000 < 4294967296) := by
  unfold lockTimeFor
  refine ⟨?_, ?_, ?_⟩
  · by_cases h : toUint32 futureUnix < 500000000
    · simp only [h, if_true]
      rw [Nat.mod_eq_of_lt (by omega)]
      omega
    · simp only [h, if_false]
      omega
  · intro h
    have : ¬ toUint32 futureUnix < 500000000 := by omega
    simp only [this, if_false]
  · intro h
    simp only [h, if_true]
    exact ⟨Nat.mod_eq_of_lt (by omega), by omega⟩

/-- C9: whatever `futureDate.Unix()` is, with `t` its `uint32` conversion,
the locktime assigned at line 320 is at least 500,000,000; it is `t` when
`t >= 500,000,000` and `t + 500,000,000` otherwise, and in that case the
`uint32` addition of line 318 stays below 2^32. -/
theorem lockTimeFor_at_least (futureUnix : Int) :
    500000000 ≤ lockTimeFor futureUnix
    ∧ (500000000 ≤ toUint32 futureUnix → lockTimeFor futureUnix = toUint32 futureUnix)
    ∧ (toUint32 futureUnix < 500000000 →
        lockTimeFor futureUnix = toUint32 futureUnix + 500000000
        ∧ toUint32 futureUnix + 500000000 < 4294967296) :=
  lockTimeFor_branches futureUnix

/-- C8 as stated fails: for the date 1970-01-01T00:00:00Z (Unix time 0, within
`0 <= t < 2^32`) the locktime is 500,000,000, not 0, and the date parsed back
from it is 500,000,000 seconds after the requested one. -/
theorem timeLocked_epoch_shifted :
    (0 : Int) ≤ 0 ∧ (0 : Int) < 4294967296
    ∧ (timeLockedTransaction 0).lockTime = 500000000
    ∧ ((timeLockedTransaction 0).lockTime : Int) ≠ (timeLockedTransaction 0).requested
    ∧ (timeLockedTransaction 0).reading = LockReading.timestamp 500000000
    ∧ (timeLockedTransaction 0).reading
        ≠ LockReading.timestamp (timeLockedTransaction 0).requested := by
  decide

/-- C8, amended: for every date whose Unix time `t` satisfies
`500,000,000 <= t < 2^32` the locktime is `t` itself and the date parsed back
from it at line 336 is the requested date; for `0 <= t < 500,000,000` the
locktime is `t + 500,000,000` and the date parsed back is that much later. -/
theorem timeLocked_roundtrip (t : Int) (h0 : 0 ≤ t) (h1 : t < 4294967296) :
    (500000000 ≤ t →
        ((timeLockedTransaction t).lockTime : Int) = t
        ∧ (timeLockedTransaction t).reading
            = LockReading.timestamp (timeLockedTransaction t).requested)
    ∧ (t < 500000000 →
        ((timeLockedTransaction t).lockTime : Int) = t + 500000000
        ∧ (timeLockedTransaction t).reading = LockReading.timestamp (t + 500000000)) := by
  have hu := toUint32_of_range t h0 h1
  have hC9 := lockTimeFor_branches t
  obtain ⟨hge, hsame, hshift⟩ := hC9
  have hread : (timeLockedTransaction t).reading
      = LockReading.timestamp (Int.ofNat (lockTimeFor t)) := by
    simp only [timeLockedTransaction, readLockTime]
    rw [if_pos hge]
  constructor
  · intro h
    have h5 : 500000000 ≤ toUint32 t := by omega
    have hl : lockTimeFor t = toUint32 t := hsame h5
    refine ⟨?_, ?_⟩
    · simp only [timeLockedTransaction]
      rw [hl]
      exact hu
    · rw [hread, hl]
      simp only [timeLockedTransaction]
      congr 1
  · intro h
    have h5 : toUint32 t < 500000000 := by omega
    have hl : lockTimeFor t = toUint32 t + 500000000 := (hshift h5).1
    refine ⟨?_, ?_⟩
    · simp only [timeLockedTransaction]
      rw [hl]
      omega
    · rw [hread, hl]
      congr 1
      simp only [Int.ofNat_eq_coe]
      omega

/-- C8, amended, at the date of the program: 2025-11-30T00:00:00Z is Unix time
1764460800, the locktime is 1764460800 and the date parsed back is the
requested one. -/
theorem timeLocked_roundtrip_witness :
    futureDate = 1764460800
    ∧ (500000000 ≤ futureDate →
        ((timeLockedTransaction futureDate).lockTime : Int) = futureDate
        ∧ (timeLockedTransaction futureDate).reading
            = LockReading.timestamp (timeLockedTransaction futureDate).requested)
    ∧ (timeLockedTransaction futureDate).lockTime = 1764460800 :=
  ⟨by decide, (timeLocked_roundtrip futureDate (by decide) (by decide)).1, by decide⟩

/-! ## The script literals -/

/-- C10: every locking-script literal handed to `From` or `mustLockingScript`
decodes, without error, to the 25-byte pay-to-address pattern, except the
literal of line 57: it decodes to 32 bytes, namely the 25 bytes of the
literal of line 149 followed by `6a 05` and the five bytes of `hello`, and so
does not have the pay-to-address shape. -/
theorem lockingScriptLiterals_shape :
    lockingScriptLiterals.all (fun p => p.1 == 57 || decodesToPayToAddress p.2) = true
    ∧ (lockingScriptLiterals.filter (fun p => p.1 == 57)).map Prod.snd = [scriptLine57]
    ∧ (mustLockingScript scriptEb0b).map List.length = some 25
    ∧ (mustLockingScript script9cbe).map List.length = some 25
    ∧ hexDecodeString scriptLine57
        = (hexDecodeString scriptEb0b).map (fun s => s ++ [OpRETURN, 5] ++ helloBytes)
    ∧ (hexDecodeString scriptLine57).map List.length = some 32
    ∧ (hexDecodeString scriptLine57).map isPayToAddress = some false
    ∧ (hexDecodeString scriptEb0b).map (fun s => (s.take 3, (s.drop 3).length, s.drop 23))
        = some ([0x76, 0xa9, 0x14], 22, [0x88, 0xac])
    ∧ (hexDecodeString script9cbe).map (fun s => (s.take 3, (s.drop 3).length, s.drop 23))
        = some ([0x76, 0xa9, 0x14], 22, [0x88, 0xac]) := by
  decide

/-! ## The error handling of the example functions -/

namespace Flow

/-- A run reads the outcome function only at the lines of its calls. -/
theorem run_congr (f g : Nat → Bool) :
    ∀ (prog : List Stmt), (∀ line ∈ callLines prog, f line = g line) →
      run f prog = run g prog := by
  intro prog
  induction prog with
  | nil => intro _; rfl
  | cons st rest ih =>
    intro h
    cases st with
    | print l =>
      have hr : run f rest = run g rest := ih (fun line hl => h line (by simpa [callLines] using hl))
      simp only [run, hr]
    | call c l hd =>
      have hl : f l = g l := h l (by simp [callLines])
      have hr : run f rest = run g rest :=
        ih (fun line hm => h line (by simp [callLines, hm]))
      simp only [run, hl, hr]

/-- The lines on which calls fail are one of the choices of lines. -/
theorem filter_mem_choices (p : Nat → Bool) :
    ∀ (l : List Nat), l.filter p ∈ choices l := by
  intro l
  induction l with
  | nil => simp [choices]
  | cons a rest ih =>
    by_cases ha : p a = true
    · simp only [List.filter_cons, ha, if_true, choices, List.mem_append, List.mem_map]
      exact Or.inr ⟨rest.filter p, ih, rfl⟩
    · have ha2 : p a = false := by simpa using ha
      simp only [List.filter_cons, ha2, choices, List.mem_append]
      exact Or.inl (by simpa using ih)

/-- Every run of a statement list is the run in which exactly the calls on a
choice of its call lines fail. -/
theorem run_eq_failingAt (fails : Nat → Bool) (prog : List Stmt) :
    run fails prog = run (failingAt ((callLines prog).filter fails)) prog := by
  apply run_congr
  intro line hline
  unfold failingAt
  cases hf : fails line with
  | false =>
    symm
    simp [List.mem_filter, hf]
  | true =>
    symm
    simp [List.mem_filter, hf, hline]

/-- The runs of the eight example functions, one per choice of failing
lines, all checked. -/
theorem examplePrograms_checked :
    ∀ prog ∈ examplePrograms, ∀ s ∈ choices (callLines prog),
      handledBySite (run (failingAt s) prog) = true
      ∧ ((s.all (fun line => !(discardedLines ++ logOnlyLines).contains line)) = true →
          stopsAfterFailure (run (failingAt s) prog) = true) := by
  set_option maxRecDepth 100000 in decide

/-- The builder call sites of the eight example functions, by source line,
and how the three lists of lines divide them. -/
theorem builder_call_sites :
    examplePrograms.map builderLines
      = [[54, 66, 74, 86], [119, 126], [146, 158, 166], [186, 193, 207, 208], [225, 232],
         [257, 264, 270], [322, 329], [352, 359, 363]]
    ∧ (examplePrograms.map builderLines).flatten.length = 23
    ∧ (examplePrograms.map builderLines).flatten.all
        (fun line => (guardedLines ++ discardedLines ++ logOnlyLines).contains line) = true
    ∧ (guardedLines ++ discardedLines ++ logOnlyLines).all
        (fun line => (examplePrograms.map builderLines).flatten.contains line) = true
    ∧ (guardedLines ++ discardedLines ++ logOnlyLines).Nodup := by
  decide

/-- C7 as stated fails on the run `basicTransaction` takes over the modelled
builder: `From` and `PayToAddress` succeed, `ChangeToAddress` (line 74) fails
on the script of line 57, the error is logged without `return`, and the
function goes on to call `FillAllInputs` (line 86), which fails in turn. -/
theorem failure_not_always_final :
    basicTransaction ∈ examplePrograms
    ∧ basicTransactionFailures demoProtocol demoQuote demoLookup demoUnlock = [74, 86]
    ∧ run (failingAt [74, 86]) basicTransaction
        = [Event.called Call.From 54 OnError.logReturn false,
           Event.called Call.PayToAddress 66 OnError.logReturn false,
           Event.called Call.ChangeToAddress 74 OnError.logOnly true,
           Event.logged,
           Event.called Call.DecodeWIF 80 OnError.logReturn false,
           Event.called Call.FillAllInputs 86 OnError.logReturn true,
           Event.logged]
    ∧ stopsAfterFailure (run (failingAt [74, 86]) basicTransaction) = false := by
  decide

/-- C7, amended: in every example function and whatever calls fail, (1) a
failed builder call on one of the lines 54, 66, 86, 119, 126, 146, 158, 186,
193, 270, 363 ends the function: after it the run holds the log entry and
nothing else; (2) a failed builder call on one of the lines 207, 208, 225,
232, 257, 264, 322, 329, 352, 359 does not stop the function: a builder call
or a print comes next; (3) when no call on the lines of (2) or on lines 74
and 166 fails, no failed builder call is followed by a builder call or a
print. -/
theorem failure_handling_by_site (fails : Nat → Bool) :
    ∀ prog ∈ examplePrograms,
      handledBySite (run fails prog) = true
      ∧ ((∀ line ∈ discardedLines ++ logOnlyLines, fails line = false) →
          stopsAfterFailure (run fails prog) = true) := by
  intro prog hprog
  have hchecked := examplePrograms_checked prog hprog ((callLines prog).filter fails)
    (filter_mem_choices fails (callLines prog))
  rw [run_eq_failingAt fails prog]
  refine ⟨hchecked.1, ?_⟩
  intro hnone
  apply hchecked.2
  rw [List.all_eq_true]
  intro line hline
  have hf : fails line = true := (List.mem_filter.mp hline).2
  by_cases hmem : line ∈ discardedLines ++ logOnlyLines
  · rw [hnone line hmem] at hf
    cases hf
  · have hc : (discardedLines ++ logOnlyLines).contains line = false := by
      cases hcon : (discardedLines ++ logOnlyLines).contains line with
      | false => rfl
      | true => exact absurd (List.mem_of_elem_eq_true hcon) hmem
    rw [hc]
    rfl

/-- C7, amended, in `basicTransaction` when `PayToAddress` (line 66) fails: the
run is the call of line 54, the failed call of line 66 and the log entry. -/
theorem failure_handling_by_site_witness :
    basicTransaction ∈ examplePrograms
    ∧ (∀ line ∈ discardedLines ++ logOnlyLines, failingAt [66] line = false)
    ∧ run (failingAt [66]) basicTransaction
        = [Event.called Call.From 54 OnError.logReturn false,
           Event.called Call.PayToAddress 66 OnError.logReturn true,
           Event.logged]
    ∧ handledBySite (run (failingAt [66]) basicTransaction) = true
    ∧ stopsAfterFailure (run (failingAt [66]) basicTransaction) = true :=
  ⟨by decide, by decide, by decide,
   (failure_handling_by_site (failingAt [66]) basicTransaction (by decide)).1,
   (failure_handling_by_site (failingAt [66]) basicTransaction (by decide)).2 (by decide)⟩

end Flow

/-- In the modelled builder the failure of line 74 does occur: the input of
`basicTransaction` carries the 32-byte script of line 57, the fee estimate
cannot classify it, and `ChangeToAddress` fails; `FillAllInputs`, which the
function calls all the same, fails on it as well. -/
theorem basicTransaction_change_fails :
    (basicPaymentTx demoProtocol).map
        (fun tx => errorOf (changeToAddress demoProtocol tx address1NRoy demoQuote))
      = some (some BuildError.unknownScriptType)
    ∧ (basicPaymentTx demoProtocol).map
        (fun tx => errorOf (fillAllInputs demoLookup demoUnlock tx))
      = some (some BuildError.unsupportedScriptType) := by
  decide

/-! ## Totals and counts -/

/-- The bound the builder keeps on both totals. -/
theorem total_of_bounded (n maxSupply : Nat) (hmax : maxSupply < 18446744073709551616)
    (h : n ≤ maxSupply) : n % 18446744073709551616 = n :=
  Nat.mod_eq_of_lt (by omega)

/-- What a successful `addUTXO` does to the lists and to the raw sums. -/
theorem addUTXO_ok (P : Protocol) (hmax : P.maxSupply < 18446744073709551616)
    (tx r : Tx) (u : UTXO) (hin : inputSum tx ≤ P.maxSupply)
    (h : addUTXO P tx u = Except.ok r) :
    inputSum r = inputSum tx + u.satoshis ∧ inputSum r ≤ P.maxSupply
    ∧ r.inputs.length = tx.inputs.length + 1 ∧ r.outputs = tx.outputs := by
  unfold addUTXO at h
  split at h
  · cases h
  · split at h
    · cases h
    · split at h
      · cases h
      · rename_i hov
        injection h with h
        subst h
        have ht : totalInputSatoshis tx = inputSum tx :=
          total_of_bounded _ _ hmax hin
        rw [ht] at hov
        refine ⟨?_, ?_, ?_, rfl⟩
        · simp [inputSum]
        · simp only [inputSum, List.map_append, List.sum_append, List.map_cons, List.map_nil,
            List.sum_cons, List.sum_nil] at hov ⊢
          omega
        · simp

/-- What a successful `fromUTXOs` does. -/
theorem fromUTXOs_ok (P : Protocol) (hmax : P.maxSupply < 18446744073709551616) :
    ∀ (us : List UTXO) (tx r : Tx), inputSum tx ≤ P.maxSupply →
      fromUTXOs P tx us = Except.ok r →
      inputSum r = inputSum tx + (us.map UTXO.satoshis).sum ∧ inputSum r ≤ P.maxSupply
      ∧ r.inputs.length = tx.inputs.length + us.length ∧ r.outputs = tx.outputs := by
  intro us
  induction us with
  | nil =>
    intro tx r hin h
    simp only [fromUTXOs] at h
    injection h with h
    subst h
    simp [hin]
  | cons u rest ih =>
    intro tx r hin h
    simp only [fromUTXOs] at h
    cases hadd : addUTXO P tx u with
    | error e => rw [hadd] at h; cases h
    | ok tx1 =>
      rw [hadd] at h
      obtain ⟨h1, h2, h3, h4⟩ := addUTXO_ok P hmax tx tx1 u hin hadd
      obtain ⟨k1, k2, k3, k4⟩ := ih tx1 r h2 h
      refine ⟨?_, k2, ?_, ?_⟩
      · rw [k1, h1]; simp [Nat.add_assoc]
      · rw [k3, h3]; simp; omega
      · rw [k4, h4]

/-- What a successful `From` does. -/
theorem addInputFrom_ok (P : Protocol) (hmax : P.maxSupply < 18446744073709551616)
    (tx r : Tx) (prevTxID : String) (vout : Nat) (script : String) (satoshis : Nat)
    (hin : inputSum tx ≤ P.maxSupply)
    (h : addInputFrom P tx prevTxID vout script satoshis = Except.ok r) :
    inputSum r = inputSum tx + satoshis ∧ inputSum r ≤ P.maxSupply
    ∧ r.inputs.length = tx.inputs.length + 1 ∧ r.outputs = tx.outputs := by
  unfold addInputFrom at h
  split at h
  · exact addUTXO_ok P hmax tx r _ hin h
  · cases h

/-- What a successful `PayToAddress` does. -/
theorem payToAddress_ok (P : Protocol) (hmax : P.maxSupply < 18446744073709551616)
    (tx r : Tx) (address : String) (satoshis : Nat) (hout : outputSum tx ≤ P.maxSupply)
    (h : payToAddress P tx address satoshis = Except.ok r) :
    outputSum r = outputSum tx + satoshis ∧ outputSum r ≤ P.maxSupply
    ∧ r.outputs.length = tx.outputs.length + 1 ∧ r.inputs = tx.inputs := by
  unfold payToAddress at h
  split at h
  · cases h
  · split at h
    · cases h
    · split at h
      · cases h
      · rename_i hov
        injection h with h
        subst h
        have ht : totalOutputSatoshis tx = outputSum tx :=
          total_of_bounded _ _ hmax hout
        rw [ht] at hov
        refine ⟨?_, ?_, ?_, rfl⟩
        · simp [outputSum]
        · simp only [outputSum, List.map_append, List.sum_append, List.map_cons,
            List.map_nil, List.sum_cons, List.sum_nil] at hov ⊢
          omega
        · simp

/-- What a successful builder call adds. -/
theorem apply_ok (P : Protocol) (hmax : P.maxSupply < 18446744073709551616)
    (tx r : Tx) (op : BuilderOp) (hin : inputSum tx ≤ P.maxSupply)
    (hout : outputSum tx ≤ P.maxSupply) (h : op.apply P tx = Except.ok r) :
    inputSum r ≤ P.maxSupply ∧ outputSum r ≤ P.maxSupply
    ∧ inputSum r = inputSum tx + op.inputAmounts.sum
    ∧ outputSum r = outputSum tx + op.outputAmounts.sum
    ∧ r.inputs.length = tx.inputs.length + op.inputAmounts.length
    ∧ r.outputs.length = tx.outputs.length + op.outputAmounts.length := by
  cases op with
  | From prevTxID vout script satoshis =>
    obtain ⟨h1, h2, h3, h4⟩ := addInputFrom_ok P hmax tx r _ _ _ _ hin h
    have ho : outputSum r = outputSum tx := by simp [outputSum, h4]
    refine ⟨h2, by rw [ho]; exact hout, ?_, ?_, ?_, ?_⟩
    · simp [BuilderOp.inputAmounts, h1]
    · simp [BuilderOp.outputAmounts, ho]
    · simp [BuilderOp.inputAmounts, h3]
    · simp [BuilderOp.outputAmounts, h4]
  | FromUTXOs us =>
    obtain ⟨h1, h2, h3, h4⟩ := fromUTXOs_ok P hmax us tx r hin h
    have ho : outputSum r = outputSum tx := by simp [outputSum, h4]
    refine ⟨h2, by rw [ho]; exact hout, ?_, ?_, ?_, ?_⟩
    · simp [BuilderOp.inputAmounts, h1]
    · simp [BuilderOp.outputAmounts, ho]
    · simp [BuilderOp.inputAmounts, h3]
    · simp [BuilderOp.outputAmounts, h4]
  | PayToAddress address satoshis =>
    obtain ⟨h1, h2, h3, h4⟩ := payToAddress_ok P hmax tx r _ _ hout h
    have hi : inputSum r = inputSum tx := by simp [inputSum, h4]
    refine ⟨by rw [hi]; exact hin, h2, ?_, ?_, ?_, ?_⟩
    · simp [BuilderOp.inputAmounts, hi]
    · simp [BuilderOp.outputAmounts, h1]
    · simp [BuilderOp.inputAmounts, h4]
    · simp [BuilderOp.outputAmounts, h3]

/-- The raw sums and the lengths after a list of builder calls. -/
theorem build_sums (P : Protocol) (hmax : P.maxSupply < 18446744073709551616) :
    ∀ (ops : List BuilderOp) (tx : Tx), inputSum tx ≤ P.maxSupply →
      outputSum tx ≤ P.maxSupply →
      inputSum (build P tx ops).1 ≤ P.maxSupply ∧ outputSum (build P tx ops).1 ≤ P.maxSupply
      ∧ inputSum (build P tx ops).1
          = inputSum tx + ((build P tx ops).2.map BuilderOp.inputAmounts).flatten.sum
      ∧ outputSum (build P tx ops).1
          = outputSum tx + ((build P tx ops).2.map BuilderOp.outputAmounts).flatten.sum
      ∧ (build P tx ops).1.inputs.length
          = tx.inputs.length + ((build P tx ops).2.map BuilderOp.inputAmounts).flatten.length
      ∧ (build P tx ops).1.outputs.length
          = tx.outputs.length
            + ((build P tx ops).2.map BuilderOp.outputAmounts).flatten.length := by
  intro ops
  induction ops with
  | nil =>
    intro tx hin hout
    simp [build, hin, hout]
  | cons op rest ih =>
    intro tx hin hout
    cases hop : op.apply P tx with
    | error e =>
      simp only [build, hop]
      exact ih tx hin hout
    | ok tx1 =>
      simp only [build, hop]
      obtain ⟨a1, a2, a3, a4, a5, a6⟩ := apply_ok P hmax tx tx1 op hin hout hop
      obtain ⟨b1, b2, b3, b4, b5, b6⟩ := ih tx1 a1 a2
      refine ⟨b1, b2, ?_, ?_, ?_, ?_⟩
      · rw [b3, a3]; simp [Nat.add_assoc]
      · rw [b4, a4]; simp [Nat.add_assoc]
      · rw [b5, a5]; simp [Nat.add_assoc]
      · rw [b6, a6]; simp [Nat.add_assoc]

/-- The calls that succeeded are among the calls made, in order. -/
theorem build_sublist (P : Protocol) :
    ∀ (ops : List BuilderOp) (tx : Tx), (build P tx ops).2.Sublist ops := by
  intro ops
  induction ops with
  | nil => intro tx; simp [build]
  | cons op rest ih =>
    intro tx
    cases hop : op.apply P tx with
    | error e =>
      simp only [build, hop]
      exact List.Sublist.cons _ (ih tx)
    | ok tx1 =>
      simp only [build, hop]
      exact List.Sublist.cons₂ _ (ih tx1)

/-- C5: on a new transaction, after any list of `From`, `FromUTXOs` and
`PayToAddress` calls, `TotalInputSatoshis()` is the plain sum of the amounts
of the inputs that were successfully added, `TotalOutputSatoshis()` the plain
sum of the amounts of the outputs that were successfully added, and
`InputCount()` and `OutputCount()` are their numbers.  (The protocol's
maximum supply fits the 64-bit amount type.) -/
theorem totals_are_plain_sums (P : Protocol) (hmax : P.maxSupply < 18446744073709551616)
    (ops : List BuilderOp) :
    (build P (newTx P) ops).2.Sublist ops
    ∧ totalInputSatoshis (build P (newTx P) ops).1
        = ((build P (newTx P) ops).2.map BuilderOp.inputAmounts).flatten.sum
    ∧ totalOutputSatoshis (build P (newTx P) ops).1
        = ((build P (newTx P) ops).2.map BuilderOp.outputAmounts).flatten.sum
    ∧ inputCount (build P (newTx P) ops).1
        = ((build P (newTx P) ops).2.map BuilderOp.inputAmounts).flatten.length
    ∧ outputCount (build P (newTx P) ops).1
        = ((build P (newTx P) ops).2.map BuilderOp.outputAmounts).flatten.length := by
  have h0i : inputSum (newTx P) ≤ P.maxSupply := by simp [inputSum, newTx]
  have h0o : outputSum (newTx P) ≤ P.maxSupply := by simp [outputSum, newTx]
  obtain ⟨b1, b2, b3, b4, b5, b6⟩ := build_sums P hmax ops (newTx P) h0i h0o
  refine ⟨build_sublist P ops (newTx P), ?_, ?_, ?_, ?_⟩
  · unfold totalInputSatoshis
    rw [total_of_bounded _ _ hmax b1, b3]
    simp [inputSum, newTx]
  · unfold totalOutputSatoshis
    rw [total_of_bounded _ _ hmax b2, b4]
    simp [outputSum, newTx]
  · unfold inputCount
    rw [b5]
    simp [newTx]
  · unfold outputCount
    rw [b6]
    simp [newTx]

/-- C5 at the calls of `transactionAmounts`: all four calls succeed, the input
total is 1500 + 2000 = 3500, the output total 1000 + 1500 = 2500, and the
64-bit difference printed at line 215 is 1000.  `transactionFromUTXOs`
reports 2 inputs, 1 output, 3000 and 2500. -/
theorem totals_are_plain_sums_witness :
    demoProtocol.maxSupply < 18446744073709551616
    ∧ (build demoProtocol (newTx demoProtocol) amountsOps).2.length = 4
    ∧ totalInputSatoshis (build demoProtocol (newTx demoProtocol) amountsOps).1 = 3500
    ∧ totalOutputSatoshis (build demoProtocol (newTx demoProtocol) amountsOps).1 = 2500
    ∧ inputCount (build demoProtocol (newTx demoProtocol) amountsOps).1 = 2
    ∧ outputCount (build demoProtocol (newTx demoProtocol) amountsOps).1 = 2
    ∧ transactionAmounts demoProtocol = some (3500, 2500, 1000)
    ∧ transactionFromUTXOs demoProtocol = some (2, 1, 3000, 2500) :=
  ⟨by decide, by decide,
   (totals_are_plain_sums demoProtocol (by decide) amountsOps).2.1.trans (by decide),
   (totals_are_plain_sums demoProtocol (by decide) amountsOps).2.2.1.trans (by decide),
   (totals_are_plain_sums demoProtocol (by decide) amountsOps).2.2.2.1.trans (by decide),
   (totals_are_plain_sums demoProtocol (by decide) amountsOps).2.2.2.2.trans (by decide),
   by decide, by decide⟩

/-! ## Data outputs -/

/-- C6: for every transaction and every payload within the script-size
ceiling, `AddOpReturnOutput(data)` succeeds and appends exactly one output,
of 0 satoshis, whose locking script is the data opcode followed by the
payload: `OutputCount()` grows by one, `TotalOutputSatoshis()` is unchanged
and `HasDataOutputs()` is true afterwards. -/
theorem addOpReturnOutput_appends (P : Protocol) (tx : Tx) (data : List Nat)
    (hsize : data.length ≤ P.scriptCeiling) :
    ∃ r, addOpReturnOutput P tx data = Except.ok r
      ∧ r.outputs = tx.outputs ++ [{ satoshis := 0, lockingScript := OpRETURN :: data }]
      ∧ r.inputs = tx.inputs
      ∧ outputCount r = outputCount tx + 1
      ∧ totalOutputSatoshis r = totalOutputSatoshis tx
      ∧ hasDataOutputs r = true := by
  refine ⟨{ tx with
      outputs := tx.outputs ++ [{ satoshis := 0, lockingScript := dataCarrierScript data }],
      phase := Phase.building }, ?_, rfl, rfl, ?_, ?_, ?_⟩
  · unfold addOpReturnOutput
    rw [if_neg (by omega)]
  · simp [outputCount]
  · simp [totalOutputSatoshis, outputSum]
  · simp [hasDataOutputs, dataCarrierScript, isDataOutput]

/-- C6 in `transactionWithOpReturn`: after `PayToAddress(…, 900)` and
`AddOpReturnOutput("You are using go-bt!")` the function reports 2 outputs, a
data output and the serialised transaction; the output total is 900. -/
theorem addOpReturnOutput_appends_witness :
    opReturnData.length ≤ demoProtocol.scriptCeiling
    ∧ transactionWithOpReturn demoProtocol
        = some (2, true,
            "0100000001760595866e99c1ce920197844740f5598b34763878696371d41b3a7c0a65b0b7"
            ++ "0000000000ffffffff0284030000000000001976a9149cbe9f5e72fa286ac8a38052d1d533"
            ++ "7aa363ea7f88ac0000000000000000156a596f7520617265207573696e6720676f2d627421"
            ++ "00000000")
    ∧ outputCount (lenientOpReturnTx demoProtocol) = 1
    ∧ totalOutputSatoshis (lenientOpReturnTx demoProtocol) = 900
    ∧ ∃ r, addOpReturnOutput demoProtocol (lenientOpReturnTx demoProtocol) opReturnData
          = Except.ok r
        ∧ r.outputs = (lenientOpReturnTx demoProtocol).outputs
            ++ [{ satoshis := 0, lockingScript := OpRETURN :: opReturnData }]
        ∧ r.inputs = (lenientOpReturnTx demoProtocol).inputs
        ∧ outputCount r = outputCount (lenientOpReturnTx demoProtocol) + 1
        ∧ totalOutputSatoshis r = totalOutputSatoshis (lenientOpReturnTx demoProtocol)
        ∧ hasDataOutputs r = true :=
  ⟨by decide, by set_option maxRecDepth 20000 in decide, by decide, by decide,
   addOpReturnOutput_appends demoProtocol (lenientOpReturnTx demoProtocol) opReturnData
     (by decide)⟩

/-! ## Change and fees -/

/-- The estimate does not read the amounts of the outputs: after the value of
a tentative last output is set, and the assembler state updated, the
estimated sizes are the same. -/
theorem estimateSizeWithTypes_last_value (P : Protocol) (base : Tx) (script : List Nat)
    (v w : Nat) (ci cj : Option Nat) (p p1 : Phase) :
    estimateSizeWithTypes P
        { base with outputs := base.outputs ++ [{ satoshis := v, lockingScript := script }],
                    changeIndex := ci, phase := p }
      = estimateSizeWithTypes P
        { base with outputs := base.outputs ++ [{ satoshis := w, lockingScript := script }],
                    changeIndex := cj, phase := p1 } := by
  cases hd : isDataOutput script <;>
    simp [estimateSizeWithTypes, dataBytes, standardOutputBytes, List.filter_append,
      outputSize, List.filter_cons, hd]

/-- The fee estimate is the same as well. -/
theorem estimateFee_last_value (P : Protocol) (base : Tx) (script : List Nat)
    (v w : Nat) (ci cj : Option Nat) (p p1 : Phase) (q : FeeQuote) :
    estimateFee P
        { base with outputs := base.outputs ++ [{ satoshis := v, lockingScript := script }],
                    changeIndex := ci, phase := p } q
      = estimateFee P
        { base with outputs := base.outputs ++ [{ satoshis := w, lockingScript := script }],
                    changeIndex := cj, phase := p1 } q := by
  unfold estimateFee estimateFeesPaid
  rw [estimateSizeWithTypes_last_value P base script v w ci cj p p1]

/-- The two outcomes of a successful `computeChange`: no change output
(step 5), or one change output of value `available - fee` (step 6). -/
theorem computeChange_ok (P : Protocol) (base r : Tx) (pkh : List Nat) (q : FeeQuote)
    (h : computeChange P base pkh q = Except.ok r) :
    totalOutputSatoshis base < totalInputSatoshis base
    ∧ r.inputs = base.inputs
    ∧ (r.outputs = base.outputs
       ∨ ∃ fee, estimateFee P r q = Except.ok fee
          ∧ fee < totalInputSatoshis base - totalOutputSatoshis base
          ∧ r.outputs = base.outputs ++
              [{ satoshis := totalInputSatoshis base - totalOutputSatoshis base - fee,
                 lockingScript := lockingScriptToAddress pkh }]) := by
  unfold computeChange at h
  split at h
  · cases h
  · rename_i hfunds
    simp only at h
    split at h
    · cases h
    · rename_i fee hfee
      split at h
      · injection h with h
        subst h
        exact ⟨by omega, rfl, Or.inl rfl⟩
      · rename_i hchange
        injection h with h
        subst h
        refine ⟨by omega, rfl, Or.inr ⟨fee, ?_, by omega, rfl⟩⟩
        rw [← hfee]
        exact estimateFee_last_value P base _ _ _ _ _ _ _ q

/-- Taking a designated change output out never lengthens the output list,
and leaves it as it was when its length is unchanged. -/
theorem dropChange_outputs (tx : Tx) :
    (dropChange tx).inputs = tx.inputs
    ∧ ((dropChange tx).outputs = tx.outputs
       ∨ (dropChange tx).outputs.length + 1 = tx.outputs.length) := by
  unfold dropChange
  cases hci : tx.changeIndex with
  | none => exact ⟨rfl, Or.inl rfl⟩
  | some k =>
    refine ⟨rfl, ?_⟩
    by_cases hk : k < tx.outputs.length
    · right
      simp only [List.length_eraseIdx, hk, if_true]
      omega
    · left
      exact List.eraseIdx_of_length_le (by omega)

/-- A successful `ChangeToAddress` that lengthens the output list by one:
the list is the old one followed by the change output, whose value is
`I - O - fee` for the fee estimated on the result. -/
theorem changeToAddress_added (P : Protocol) (tx r : Tx) (address : String) (q : FeeQuote)
    (hok : changeToAddress P tx address q = Except.ok r)
    (hadd : r.outputs.length = tx.outputs.length + 1) :
    ∃ pkh fee, P.decodeAddress address = some pkh
      ∧ totalOutputSatoshis tx < totalInputSatoshis tx
      ∧ estimateFee P r q = Except.ok fee
      ∧ fee < totalInputSatoshis tx - totalOutputSatoshis tx
      ∧ r.inputs = tx.inputs
      ∧ r.outputs = tx.outputs ++
          [{ satoshis := totalInputSatoshis tx - totalOutputSatoshis tx - fee,
             lockingScript := lockingScriptToAddress pkh }] := by
  unfold changeToAddress at hok
  split at hok
  · cases hok
  · rename_i pkh hdec
    obtain ⟨hlt, hin, hcases⟩ := computeChange_ok P (dropChange tx) r pkh q hok
    obtain ⟨hdi, hdo⟩ := dropChange_outputs tx
    have hbase : (dropChange tx).outputs = tx.outputs := by
      rcases hdo with hsame | hshort
      · exact hsame
      · exfalso
        rcases hcases with hno | ⟨fee, _, _, hout⟩
        · rw [hno] at hadd; omega
        · rw [hout] at hadd; simp at hadd; omega
    have hti : totalInputSatoshis (dropChange tx) = totalInputSatoshis tx := by
      simp [totalInputSatoshis, inputSum, hdi]
    have hto : totalOutputSatoshis (dropChange tx) = totalOutputSatoshis tx := by
      simp [totalOutputSatoshis, outputSum, hbase]
    rw [hti, hto] at hlt
    rcases hcases with hno | ⟨fee, hfee, hfl, hout⟩
    · exfalso
      rw [hno, hbase] at hadd
      omega
    · rw [hti, hto] at hfl hout
      rw [hbase] at hout
      exact ⟨pkh, fee, hdec, hlt, hfee, hfl, hin.trans hdi, hout⟩

/-- The balance after a successful `ChangeToAddress` that added the change
output: the input total is unchanged, the output total has grown by the
change, and the 64-bit difference of the two is the estimated fee. -/
theorem changeToAddress_balance (P : Protocol) (tx r : Tx) (address : String) (q : FeeQuote)
    (hok : changeToAddress P tx address q = Except.ok r)
    (hadd : r.outputs.length = tx.outputs.length + 1) :
    ∃ pkh fee, P.decodeAddress address = some pkh
      ∧ totalOutputSatoshis tx < totalInputSatoshis tx
      ∧ estimateFee P r q = Except.ok fee
      ∧ fee < totalInputSatoshis tx - totalOutputSatoshis tx
      ∧ r.outputs = tx.outputs ++
          [{ satoshis := totalInputSatoshis tx - totalOutputSatoshis tx - fee,
             lockingScript := lockingScriptToAddress pkh }]
      ∧ totalInputSatoshis r = totalInputSatoshis tx
      ∧ totalOutputSatoshis r
          = totalOutputSatoshis tx + (totalInputSatoshis tx - totalOutputSatoshis tx - fee)
      ∧ sub64 (totalInputSatoshis r) (totalOutputSatoshis r) = fee := by
  obtain ⟨pkh, fee, hdec, hlt, hfee, hfl, hin, hout⟩ :=
    changeToAddress_added P tx r address q hok hadd
  have hI : totalInputSatoshis r = totalInputSatoshis tx := by
    simp [totalInputSatoshis, inputSum, hin]
  have hsum : outputSum r
      = outputSum tx + (totalInputSatoshis tx - totalOutputSatoshis tx - fee) := by
    simp [outputSum, hout]
  have hIlt : totalInputSatoshis tx < 18446744073709551616 := by
    unfold totalInputSatoshis
    exact Nat.mod_lt _ (by norm_num)
  have hO : totalOutputSatoshis r
      = totalOutputSatoshis tx + (totalInputSatoshis tx - totalOutputSatoshis tx - fee) := by
    have hdef : totalOutputSatoshis tx = outputSum tx % 18446744073709551616 := rfl
    unfold totalOutputSatoshis at hlt hfl ⊢
    rw [hsum]
    omega
  refine ⟨pkh, fee, hdec, hlt, hfee, hfl, hout, hI, hO, ?_⟩
  rw [hI, hO]
  unfold sub64
  omega

/-- C1: whenever `ChangeToAddress` adds a change output to a transaction
whose inputs total `I` and whose outputs total `O`, then `I > O`, and the
value of the added output is exactly `I - O - fee`, where `fee` is the fee
estimated for the transaction including the change output, in integer
arithmetic; afterwards `TotalInputSatoshis() - TotalOutputSatoshis()` equals
`fee`. -/
theorem change_value_exact (P : Protocol) (tx r : Tx) (address : String) (q : FeeQuote)
    (hok : changeToAddress P tx address q = Except.ok r)
    (hadd : outputCount r = outputCount tx + 1) :
    ∃ fee change,
      totalOutputSatoshis tx < totalInputSatoshis tx
      ∧ estimateFee P r q = Except.ok fee
      ∧ r.outputs = tx.outputs ++ [change]
      ∧ change.satoshis = totalInputSatoshis tx - totalOutputSatoshis tx - fee
      ∧ change.satoshis + fee + totalOutputSatoshis tx = totalInputSatoshis tx
      ∧ totalInputSatoshis r = totalInputSatoshis tx
      ∧ totalOutputSatoshis r = totalOutputSatoshis tx + change.satoshis
      ∧ totalInputSatoshis r - totalOutputSatoshis r = fee
      ∧ sub64 (totalInputSatoshis r) (totalOutputSatoshis r) = fee := by
  obtain ⟨pkh, fee, _, hlt, hfee, hfl, hout, hI, hO, hsub⟩ :=
    changeToAddress_balance P tx r address q hok hadd
  refine ⟨fee, { satoshis := totalInputSatoshis tx - totalOutputSatoshis tx - fee,
                 lockingScript := lockingScriptToAddress pkh },
    hlt, hfee, hout, rfl, ?_, hI, hO, ?_, hsub⟩
  · simp only
    omega
  · rw [hI, hO]
    omega

/-- C1 in `transactionWithChange`, at a quote for which the fee is 150: the
inputs total 1500, the outputs 1000, the change output is worth 350, and the
function reports 1500, 1350 and 2 outputs. -/
theorem change_value_exact_witness :
    paymentTx demoProtocol = some (lenientPaymentTx demoProtocol)
    ∧ transactionWithChange demoProtocol demoQuote = some (1500, 1350, 2)
    ∧ totalInputSatoshis (lenientPaymentTx demoProtocol) = 1500
    ∧ totalOutputSatoshis (lenientPaymentTx demoProtocol) = 1000
    ∧ estimateFee demoProtocol changedTx demoQuote = Except.ok 150
    ∧ (changedTx.outputs.map Output.satoshis) = [1000, 350]
    ∧ ∃ fee change,
      totalOutputSatoshis (lenientPaymentTx demoProtocol)
        < totalInputSatoshis (lenientPaymentTx demoProtocol)
      ∧ estimateFee demoProtocol changedTx demoQuote = Except.ok fee
      ∧ changedTx.outputs = (lenientPaymentTx demoProtocol).outputs ++ [change]
      ∧ change.satoshis = totalInputSatoshis (lenientPaymentTx demoProtocol)
          - totalOutputSatoshis (lenientPaymentTx demoProtocol) - fee
      ∧ change.satoshis + fee + totalOutputSatoshis (lenientPaymentTx demoProtocol)
          = totalInputSatoshis (lenientPaymentTx demoProtocol)
      ∧ totalInputSatoshis changedTx = totalInputSatoshis (lenientPaymentTx demoProtocol)
      ∧ totalOutputSatoshis changedTx
          = totalOutputSatoshis (lenientPaymentTx demoProtocol) + change.satoshis
      ∧ totalInputSatoshis changedTx - totalOutputSatoshis changedTx = fee
      ∧ sub64 (totalInputSatoshis changedTx) (totalOutputSatoshis changedTx) = fee :=
  ⟨rfl, by decide, by decide, by decide, rfl, by decide,
   change_value_exact demoProtocol (lenientPaymentTx demoProtocol) changedTx address1NRoy
     demoQuote rfl (by decide)⟩

/-- C2: whenever `ChangeToAddress(addr, q)` succeeds and adds a change
output, then on the resulting transaction the fee actually paid,
`TotalInputSatoshis() - TotalOutputSatoshis()`, is exactly the fee the fee
model estimates for it, which is the `TotalFeePaid` that
`EstimateFeesPaid(q)` reports, and `EstimateIsFeePaidEnough(q)` returns
true. -/
theorem fee_paid_is_estimate (P : Protocol) (tx r : Tx) (address : String) (q : FeeQuote)
    (hok : changeToAddress P tx address q = Except.ok r)
    (hadd : outputCount r = outputCount tx + 1) :
    ∃ fees, estimateFeesPaid P r q = Except.ok fees
      ∧ estimateFee P r q = Except.ok fees.totalFeePaid
      ∧ totalOutputSatoshis r ≤ totalInputSatoshis r
      ∧ totalInputSatoshis r - totalOutputSatoshis r = fees.totalFeePaid
      ∧ sub64 (totalInputSatoshis r) (totalOutputSatoshis r) = fees.totalFeePaid
      ∧ estimateIsFeePaidEnough P r q = Except.ok true := by
  obtain ⟨pkh, fee, _, hlt, hfee, hfl, hout, hI, hO, hsub⟩ :=
    changeToAddress_balance P tx r address q hok hadd
  have hfee2 := hfee
  unfold estimateFee at hfee2
  cases hfp : estimateFeesPaid P r q with
  | error e => rw [hfp] at hfee2; cases hfee2
  | ok fees =>
    rw [hfp] at hfee2
    injection hfee2 with hfee2
    subst hfee2
    refine ⟨fees, rfl, hfee, ?_, ?_, hsub, ?_⟩
    · rw [hI, hO]; omega
    · rw [hI, hO]; omega
    · unfold estimateIsFeePaidEnough
      rw [hfee]
      simp only [hsub]
      simp

/-- C2 in `feeExamples`, at the concrete quote: 150 satoshis are paid, 150 are
estimated, and the fee is reported as enough. -/
theorem fee_paid_is_estimate_witness :
    changeToAddress demoProtocol (lenientPaymentTx demoProtocol) address1NRoy demoQuote
      = Except.ok changedTx
    ∧ outputCount changedTx = outputCount (lenientPaymentTx demoProtocol) + 1
    ∧ (feeExamples demoProtocol demoQuote).map
          (fun f => (f.totalInput, f.totalOutput, errorFree f.size, errorFree f.isEnough,
            errorFree (f.fees.map FeesPaid.totalFeePaid)))
        = some (1500, 1350, some 226, some true, some 150)
    ∧ sub64 (totalInputSatoshis changedTx) (totalOutputSatoshis changedTx) = 150
    ∧ ∃ fees, estimateFeesPaid demoProtocol changedTx demoQuote = Except.ok fees
      ∧ estimateFee demoProtocol changedTx demoQuote = Except.ok fees.totalFeePaid
      ∧ totalOutputSatoshis changedTx ≤ totalInputSatoshis changedTx
      ∧ totalInputSatoshis changedTx - totalOutputSatoshis changedTx = fees.totalFeePaid
      ∧ sub64 (totalInputSatoshis changedTx) (totalOutputSatoshis changedTx)
          = fees.totalFeePaid
      ∧ estimateIsFeePaidEnough demoProtocol changedTx demoQuote = Except.ok true :=
  ⟨rfl, by decide, by decide, by decide,
   fee_paid_is_estimate demoProtocol (lenientPaymentTx demoProtocol) changedTx address1NRoy
     demoQuote rfl (by decide)⟩

/-! ## Serialisation -/

theorem littleEndian_length : ∀ (k n : Nat), (littleEndian k n).length = k := by
  intro k
  induction k with
  | zero => intro n; rfl
  | succ k ih => intro n; simp [littleEndian, ih]

theorem littleEndian_bytes : ∀ (k n : Nat), isByteString (littleEndian k n) := by
  intro k
  induction k with
  | zero => intro n b hb; simp [littleEndian] at hb
  | succ k ih =>
    intro n b hb
    simp only [littleEndian, List.mem_cons] at hb
    rcases hb with h | h
    · rw [h]; exact Nat.mod_lt _ (by norm_num)
    · exact ih _ b h

theorem fromLittleEndian_littleEndian :
    ∀ (k n : Nat), n < 256 ^ k → fromLittleEndian (littleEndian k n) = n := by
  intro k
  induction k with
  | zero =>
    intro n h
    simp at h
    simp [littleEndian, fromLittleEndian, h]
  | succ k ih =>
    intro n h
    have hdiv : n / 256 < 256 ^ k := by
      rw [Nat.div_lt_iff_lt_mul (by norm_num)]
      rw [pow_succ] at h
      exact h
    simp only [littleEndian, fromLittleEndian, ih _ hdiv]
    omega

theorem varInt_length (n : Nat) : (varInt n).length = varIntSize n := by
  unfold varInt varIntSize
  split
  · rfl
  · split
    · simp [littleEndian_length]
    · split <;> simp [littleEndian_length]

theorem varInt_bytes (n : Nat) : isByteString (varInt n) := by
  unfold varInt
  intro b hb
  split at hb
  · simp at hb; omega
  · split at hb
    · simp only [List.mem_cons] at hb
      rcases hb with h | h
      · omega
      · exact littleEndian_bytes _ _ b h
    · split at hb
      · simp only [List.mem_cons] at hb
        rcases hb with h | h
        · omega
        · exact littleEndian_bytes _ _ b h
      · simp only [List.mem_cons] at hb
        rcases hb with h | h
        · omega
        · exact littleEndian_bytes _ _ b h

theorem fromHexChar_hexDigit : ∀ n, n < 16 → fromHexChar (hexDigit n) = some n := by
  decide

theorem hexDigit_lower : ∀ n, n < 16 → isLowerHexDigit (hexDigit n) = true := by
  decide

/-- Decoding undoes encoding on byte strings. -/
theorem decodePairs_encodeChars :
    ∀ (bs : List Nat), isByteString bs → decodePairs (encodeChars bs) = some bs := by
  intro bs
  induction bs with
  | nil => intro _; rfl
  | cons b rest ih =>
    intro h
    have hb : b < 256 := h b (List.mem_cons_self _ _)
    have hrest : isByteString rest := fun x hx => h x (List.mem_cons_of_mem _ hx)
    simp only [encodeChars, decodePairs,
      fromHexChar_hexDigit (b / 16) (by omega), fromHexChar_hexDigit (b % 16) (by omega),
      ih hrest]
    congr 2
    omega

/-- Encoding writes lowercase hexadecimal digits only. -/
theorem encodeChars_lower :
    ∀ (bs : List Nat), isByteString bs → ∀ c ∈ encodeChars bs, isLowerHexDigit c = true := by
  intro bs
  induction bs with
  | nil => intro _ c hc; simp [encodeChars] at hc
  | cons b rest ih =>
    intro h c hc
    have hb : b < 256 := h b (List.mem_cons_self _ _)
    have hrest : isByteString rest := fun x hx => h x (List.mem_cons_of_mem _ hx)
    simp only [encodeChars, List.mem_cons] at hc
    rcases hc with h1 | h1 | h1
    · rw [h1]; exact hexDigit_lower _ (by omega)
    · rw [h1]; exact hexDigit_lower _ (by omega)
    · exact ih hrest c h1

theorem encodeChars_length : ∀ (bs : List Nat), (encodeChars bs).length = 2 * bs.length := by
  intro bs
  induction bs with
  | nil => rfl
  | cons b rest ih => simp [encodeChars, ih]; omega

theorem inputBytes_bytes (i : Input) (h1 : isByteString i.previousTxID)
    (h2 : isByteString i.unlockingScript) : isByteString (inputBytes i) := by
  intro b hb
  simp only [inputBytes, List.mem_append, List.mem_reverse] at hb
  rcases hb with (((h | h) | h) | h) | h
  · exact h1 b h
  · exact littleEndian_bytes _ _ b h
  · exact varInt_bytes _ b h
  · exact h2 b h
  · exact littleEndian_bytes _ _ b h

theorem outputBytes_bytes (o : Output) (h1 : isByteString o.lockingScript) :
    isByteString (outputBytes o) := by
  intro b hb
  simp only [outputBytes, List.mem_append] at hb
  rcases hb with (h | h) | h
  · exact littleEndian_bytes _ _ b h
  · exact varInt_bytes _ b h
  · exact h1 b h

/-- The serialisation of a well-formed transaction is a byte string. -/
theorem toBytes_bytes (tx : Tx) (hwf : WellFormed tx) : isByteString (toBytes tx) := by
  intro b hb
  simp only [toBytes, List.mem_append, List.mem_flatten, List.mem_map] at hb
  rcases hb with ((((h | h) | h) | h) | h) | h
  · exact littleEndian_bytes _ _ b h
  · exact varInt_bytes _ b h
  · obtain ⟨l, ⟨i, hi, rfl⟩, hbl⟩ := h
    exact inputBytes_bytes i (hwf.txid_bytes i hi) (hwf.unlocking_bytes i hi) b hbl
  · exact varInt_bytes _ b h
  · obtain ⟨l, ⟨o, ho, rfl⟩, hbl⟩ := h
    exact outputBytes_bytes o (hwf.locking_bytes o ho) b hbl
  · exact littleEndian_bytes _ _ b h

/-- C3: for every transaction whose fields fit their widths, `String()` is the
lowercase hexadecimal rendering of `Bytes()` (two digits per byte, digits
`0-9a-f`, decoding back to the bytes), and `Bytes()` is the layout: 4-byte
little-endian version, variable-length input count, each input (32-byte
previous txid in reversed byte order, 4-byte vout, length-prefixed unlocking
script, 4-byte sequence number), variable-length output count, each output
(8-byte little-endian value, length-prefixed locking script), 4-byte
little-endian locktime.  One input with an empty unlocking script and one
output with a 25-byte script make 85 bytes and 170 characters. -/
theorem serialisation_layout (tx : Tx) (hwf : WellFormed tx) :
    toHex tx = hexEncodeToString (toBytes tx)
    ∧ (∀ c ∈ (toHex tx).toList, isLowerHexDigit c = true)
    ∧ hexDecodeString (toHex tx) = some (toBytes tx)
    ∧ (toHex tx).length = 2 * (toBytes tx).length
    ∧ toBytes tx
        = littleEndian 4 tx.version
          ++ varInt tx.inputs.length ++ (tx.inputs.map inputBytes).flatten
          ++ varInt tx.outputs.length ++ (tx.outputs.map outputBytes).flatten
          ++ littleEndian 4 tx.lockTime
    ∧ ((littleEndian 4 tx.version).length = 4
        ∧ fromLittleEndian (littleEndian 4 tx.version) = tx.version)
    ∧ ((littleEndian 4 tx.lockTime).length = 4
        ∧ fromLittleEndian (littleEndian 4 tx.lockTime) = tx.lockTime)
    ∧ (∀ i ∈ tx.inputs,
        inputBytes i
          = i.previousTxID.reverse ++ littleEndian 4 i.previousOutputIndex
            ++ varInt i.unlockingScript.length ++ i.unlockingScript
            ++ littleEndian 4 i.sequenceNumber
        ∧ i.previousTxID.reverse.length = 32
        ∧ (littleEndian 4 i.previousOutputIndex).length = 4
        ∧ fromLittleEndian (littleEndian 4 i.previousOutputIndex) = i.previousOutputIndex
        ∧ (littleEndian 4 i.sequenceNumber).length = 4
        ∧ fromLittleEndian (littleEndian 4 i.sequenceNumber) = i.sequenceNumber)
    ∧ (∀ o ∈ tx.outputs,
        outputBytes o
          = littleEndian 8 o.satoshis ++ varInt o.lockingScript.length ++ o.lockingScript
        ∧ (littleEndian 8 o.satoshis).length = 8
        ∧ fromLittleEndian (littleEndian 8 o.satoshis) = o.satoshis)
    ∧ (∀ i o, tx.inputs = [i] → i.unlockingScript = [] → tx.outputs = [o] →
        o.lockingScript.length = 25 →
        (toBytes tx).length = 85 ∧ (toHex tx).length = 170) := by
  have hlen : (toHex tx).length = 2 * (toBytes tx).length := by
    simp only [toHex, hexEncodeToString, String.length]
    exact encodeChars_length _
  refine ⟨rfl, ?_, ?_, hlen, rfl, ?_, ?_, ?_, ?_, ?_⟩
  · intro c hc
    exact encodeChars_lower _ (toBytes_bytes tx hwf) c hc
  · exact decodePairs_encodeChars _ (toBytes_bytes tx hwf)
  · exact ⟨littleEndian_length _ _,
      fromLittleEndian_littleEndian 4 _ (by have := hwf.version_lt; omega)⟩
  · exact ⟨littleEndian_length _ _,
      fromLittleEndian_littleEndian 4 _ (by have := hwf.lockTime_lt; omega)⟩
  · intro i hi
    refine ⟨rfl, ?_, littleEndian_length _ _, ?_, littleEndian_length _ _, ?_⟩
    · rw [List.length_reverse]; exact hwf.txid_len i hi
    · exact fromLittleEndian_littleEndian 4 _ (by have := hwf.vout_lt i hi; omega)
    · exact fromLittleEndian_littleEndian 4 _ (by have := hwf.sequence_lt i hi; omega)
  · intro o ho
    refine ⟨rfl, littleEndian_length _ _, ?_⟩
    exact fromLittleEndian_littleEndian 8 _ (by have := hwf.satoshis_lt o ho; omega)
  · intro i o hi hu ho hl
    have h32 : i.previousTxID.length = 32 := hwf.txid_len i (by rw [hi]; simp)
    have hb : (toBytes tx).length = 85 := by
      simp [toBytes, hi, ho, inputBytes, outputBytes, hu, hl, h32, littleEndian_length,
        varInt]
    exact ⟨hb, by rw [hlen, hb]⟩

/-- The transaction of `transactionSerialization` fits the field widths. -/
theorem lenientPaymentTx_wellFormed : WellFormed (lenientPaymentTx demoProtocol) :=
  ⟨by decide, by decide, by decide, by decide, by decide, by decide, by decide, by decide,
   by decide⟩

/-- C3 in `transactionSerialization`: the one-input, one-output transaction
serialises to 85 bytes, `String()` has 170 characters, all lowercase
hexadecimal, and decodes back to `Bytes()`. -/
theorem serialisation_layout_witness :
    transactionSerialization demoProtocol
      = ("01000000019d81a1815050f3a7bf8392e077481151af50a011a10708d4fc480a8ead76b411"
          ++ "0000000000ffffffff01e8030000000000001976a914eb0bd5edba389198e73f8efabddfc6"
          ++ "1666969ff788ac00000000", 85)
    ∧ (lenientPaymentTx demoProtocol).inputs.map (fun i => i.unlockingScript) = [[]]
    ∧ (lenientPaymentTx demoProtocol).outputs.map (fun o => o.lockingScript.length) = [25]
    ∧ (∀ c ∈ (toHex (lenientPaymentTx demoProtocol)).toList, isLowerHexDigit c = true)
    ∧ hexDecodeString (toHex (lenientPaymentTx demoProtocol))
        = some (toBytes (lenientPaymentTx demoProtocol))
    ∧ (toHex (lenientPaymentTx demoProtocol)).length
        = 2 * (toBytes (lenientPaymentTx demoProtocol)).length :=
  ⟨by set_option maxRecDepth 20000 in decide, by decide, by decide,
   (serialisation_layout (lenientPaymentTx demoProtocol) lenientPaymentTx_wellFormed).2.1,
   (serialisation_layout (lenientPaymentTx demoProtocol) lenientPaymentTx_wellFormed).2.2.1,
   (serialisation_layout (lenientPaymentTx demoProtocol) lenientPaymentTx_wellFormed).2.2.2.1⟩

end TbcLib
